import Mathlib

/-!
# Taichi AOT Android demo (`android/app/src/main/cpp/main.cpp`)

Shallow embedding of the JNI entry points of the MPM88 demo: `init`, `destroy`,
`pause`, `resume`, `resize` and `render`.

The program is a sequence of calls into external libraries (the Taichi Vulkan
runtime, the GGUI renderer, the Android NDK).  Those calls are kept opaque: each
one is recorded as an `Event` in a chronological trace, together with the
arguments the program passes and the value the library hands back.  What the
program itself owns is modelled explicitly: its seven global variables, the
host array `x`, the mapping flag and the vertex memory behind `dalloc_circles`.
-/

namespace TaichiAot

/-! ## Constants and platform parameters -/

/-- Source: `#define NR_PARTICLES 8192`. -/
def NR_PARTICLES : Nat := 8192

/-- Size in bytes of `taichi::float32` (a C `float`). -/
def sizeof_float32 : Nat := 4

/-- Size in bytes of `taichi::uint64`. -/
def sizeof_uint64 : Nat := 8

/-- A `taichi::float32` value, kept as the 32-bit pattern that is stored in memory.
The program only copies such values; it performs no floating-point arithmetic. -/
structure float32 where
  bits : Nat
deriving DecidableEq, Repr

/-- The literal `0.0` (all bits clear). -/
def float32.zero : float32 := ⟨0⟩

/-- A floating-point literal of the source text, kept as the decimal that is written. -/
abbrev Lit := ℚ

/-- Handle type `VkRuntime::KernelHandle`: an identifier chosen by the runtime. -/
structure KernelHandle where
  id : Int
deriving DecidableEq, Repr

/-- Type `taichi::lang::DeviceAllocation`: an identifier chosen by the device. -/
structure DeviceAllocation where
  alloc_id : Int
deriving DecidableEq, Repr

/-- Declarations the program takes from headers that are not part of the repository.
They are parameters of the embedding. -/
structure Target where
  /-- Value of `sizeof(taichi::ui::Vertex)`. -/
  sizeof_Vertex : Nat
  /-- Width in bits of `size_t`, the type in which the byte sizes are computed. -/
  size_t_bits : Nat
  /-- Constant `taichi_result_buffer_entries`. -/
  taichi_result_buffer_entries : Nat
  /-- Expansion of the format macro `PRId64`. -/
  PRId64 : String
  /-- Value of a default-constructed `KernelHandle` (the globals before any `init`). -/
  KernelHandle_default : KernelHandle
  /-- Value of a default-constructed `DeviceAllocation`. -/
  DeviceAllocation_default : DeviceAllocation

/-- Arithmetic in `size_t`: results wrap modulo `2 ^ size_t_bits`. -/
def Target.size_t (T : Target) (n : Nat) : Nat := n % 2 ^ T.size_t_bits

/-- A sane platform: `Vertex` is not empty, `size_t` has at least 32 bits, and the byte
size of `NR_PARTICLES` vertices fits in `size_t`. -/
def Target.ok (T : Target) : Prop :=
  0 < T.sizeof_Vertex ∧ 32 ≤ T.size_t_bits ∧ NR_PARTICLES * T.sizeof_Vertex < 2 ^ T.size_t_bits

instance (T : Target) : Decidable T.ok :=
  inferInstanceAs (Decidable (_ ∧ _ ∧ _))

/-! ## Data passed to the libraries -/

inductive Arch where
  | x64 | cuda | opengl | vulkan
deriving DecidableEq, Repr

/-- Type `taichi::ui::AppConfig`, the fields `init` fills in. -/
structure AppConfig where
  name : String
  width : Int
  height : Int
  vsync : Bool
  show_window : Bool
  package_path : String
  ti_arch : Arch
deriving DecidableEq, Repr

/-- Type `VkRuntime::RegisterParams`: what the AOT loader returns for one kernel. -/
structure RegisterParams where
  payload : Nat
deriving DecidableEq, Repr

/-- Type `Device::AllocParams`, the fields `init` fills in. -/
structure AllocParams where
  size : Nat
  host_write : Bool
  host_read : Bool
deriving DecidableEq, Repr

inductive FieldType where
  | Scalar | Matrix
deriving DecidableEq, Repr

inductive FieldSource where
  | TaichiCuda | TaichiX64 | TaichiVulkan | TaichiOpenGL
deriving DecidableEq, Repr

inductive PrimitiveType where
  | f32 | f64 | i32 | i64
deriving DecidableEq, Repr

/-- Type `taichi::ui::FieldInfo`. -/
structure FieldInfo where
  valid : Bool
  field_type : FieldType
  matrix_rows : Int
  matrix_cols : Int
  shape : List Int
  field_source : FieldSource
  dtype : PrimitiveType
  snode : Option Nat
  dev_alloc : DeviceAllocation
deriving DecidableEq, Repr

/-- Type `taichi::ui::RenderableInfo`, the fields `render` fills in. -/
structure RenderableInfo where
  vbo : FieldInfo
  has_per_vertex_color : Bool
deriving DecidableEq, Repr

/-- Type `taichi::ui::CirclesInfo`. -/
structure CirclesInfo where
  renderable_info : RenderableInfo
  color : Lit × Lit × Lit
  radius : Lit
deriving DecidableEq, Repr

/-- Type `taichi::ui::Vertex`: the position, and the remaining attributes, which this
program never touches. -/
structure Vertex where
  pos : float32 × float32 × float32
  rest : List float32
deriving DecidableEq, Repr

/-! ## Events -/

/-- One observable action of the program: a call into a library with its arguments (and,
where the program uses it, the returned value), or an access to host or mapped memory. -/
inductive Event where
  | ANativeWindow_fromSurface
  | ANativeWindow_getWidth (ret : Int)
  | ANativeWindow_getHeight (ret : Int)
  | AotModuleLoaderImpl (path : String)
  | MemoryPool_new (arch : Arch)
  | memory_pool_allocate (size alignment : Nat)
  | Renderer_new
  | renderer_init (cfg : AppConfig)
  | Gui_new
  | VkRuntime_new
  | get_kernel (name : String) (ret : Bool)
  | get_root_size (ret : Nat)
  | ALOGE (func fmt : String)
  | ALOGI (func fmt : String) (args : List Int)
  | add_root_buffer (root_size : Nat)
  | register_taichi_kernel (params : RegisterParams) (ret : KernelHandle)
  | allocate_memory (params : AllocParams) (ret : DeviceAllocation)
  | launch_kernel (handle : KernelHandle)
  | set_background_color (color : Lit × Lit × Lit)
  | steady_clock_now
  | synchronize
  | read_memory (offset size : Nat)
  | map (alloc : DeviceAllocation)
  | host_load (j : Nat)
  | vertex_store (i : Nat) (pos : float32 × float32 × float32)
  | unmap (alloc : DeviceAllocation)
  | circles (info : CirclesInfo)
  | draw_frame
  | present_image
  | prepare_for_next_frame
deriving DecidableEq, Repr

/-! ## Program state -/

structure MemoryPool where
  arch : Arch
deriving DecidableEq, Repr

structure VkRuntime where
  host_result_buffer_size : Nat
deriving DecidableEq, Repr

structure Renderer where
  config : AppConfig
deriving DecidableEq, Repr

structure Gui where
  mk ::
deriving DecidableEq, Repr

/-- The seven global variables of `main.cpp` (lines 48-54).  A pointer is `none` while it
is null. -/
structure Globals where
  memory_pool : Option MemoryPool
  vulkan_runtime : Option VkRuntime
  init_kernel_handle : KernelHandle
  substep_kernel_handle : KernelHandle
  renderer : Option Renderer
  gui : Option Gui
  dalloc_circles : DeviceAllocation
deriving DecidableEq, Repr

/-- The process: its globals, the device memory behind `dalloc_circles` (its mapped flag
and the vertices it holds), and the events issued so far, oldest first. -/
structure World where
  g : Globals
  mapped : Bool
  memory : List Vertex
  trace : List Event
deriving DecidableEq, Repr

/-- The process at start-up: null pointers, default handles, nothing allocated. -/
def World.initial (T : Target) : World where
  g := { memory_pool := none, vulkan_runtime := none,
         init_kernel_handle := T.KernelHandle_default,
         substep_kernel_handle := T.KernelHandle_default,
         renderer := none, gui := none,
         dalloc_circles := T.DeviceAllocation_default }
  mapped := false
  memory := []
  trace := []

/-- Record one event. -/
def World.emit (w : World) (e : Event) : World := { w with trace := w.trace ++ [e] }

/-- Why the process died. -/
inductive Fault where
  | null_deref | out_of_bounds | double_map
deriving DecidableEq, Repr

/-- A dead process: the fault and the world at that moment. -/
structure Crash where
  fault : Fault
  world : World
deriving DecidableEq, Repr

/-! ## Inputs supplied by the environment -/

/-- The AOT module found at `/data/local/tmp/mpm88`: its named kernels and its root size. -/
structure AotModule where
  kernels : List (String × RegisterParams)
  root_size : Nat
deriving DecidableEq, Repr

/-- Method `AotModuleLoaderImpl::get_kernel(name, out)`: `some out` when it returns true. -/
def AotModule.get_kernel (m : AotModule) (name : String) : Option RegisterParams :=
  m.kernels.lookup name

/-- What the environment hands to one call of `init`. -/
structure InitIn where
  /-- The module on storage. -/
  aot : AotModule
  /-- Result of `ANativeWindow_getWidth`. -/
  window_width : Int
  /-- Result of `ANativeWindow_getHeight`. -/
  window_height : Int
  /-- Handle the new runtime returns for its first registration. -/
  first_handle : KernelHandle
  /-- Handle the new runtime returns for its second registration. -/
  second_handle : KernelHandle
  /-- Allocation the device returns. -/
  new_alloc : DeviceAllocation
  /-- Contents of the fresh allocation, vertex by vertex. -/
  fresh_memory : Nat → Vertex

/-- What the environment hands to one call of `render`. -/
structure RenderIn where
  /-- Indeterminate contents of the local array `x` on entry. -/
  stack : Nat → float32
  /-- Device-resident result storage, float by float, at the time of the read. -/
  result : Nat → float32
  /-- Measured `cpu_time` in nanoseconds. -/
  cpu_time : Int

/-! ## Library operations with a modelled effect -/

/-- Modelled from the spec: `VkRuntime::read_memory(ptr, offset, size)` is library code.
The spec says it copies `size` bytes of device result storage starting at `offset` into
the host buffer.  Writing past the end of the host buffer is a fault. -/
def read_memory (result : Nat → float32) (x : List float32) (offset size : Nat) :
    Option (List float32) :=
  if size ≤ sizeof_float32 * x.length then
    some ((List.range (size / sizeof_float32)).map
            (fun k => result (offset / sizeof_float32 + k))
          ++ x.drop (size / sizeof_float32))
  else none

/-- Modelled from the spec: `Device::map(alloc)` is library code.  The spec says the
acquisition is exclusive: a second `map` before the matching `unmap` is a violation. -/
def device_map (alloc : DeviceAllocation) (w : World) : Except Crash World :=
  let w := w.emit (.map alloc)
  if w.mapped then .error ⟨.double_map, w⟩ else .ok { w with mapped := true }

/-- Modelled from the spec: `Device::unmap(alloc)` is library code; it releases the
mapping. -/
def device_unmap (alloc : DeviceAllocation) (w : World) : World :=
  { w.emit (.unmap alloc) with mapped := false }

/-- Modelled from the spec: `Device::allocate_memory(params)` is library code.  The new
allocation holds `params.size` bytes, that is `params.size / sizeof(Vertex)` vertices, and
is not mapped. -/
def device_allocate_memory (T : Target) (params : AllocParams) (ret : DeviceAllocation)
    (fresh : Nat → Vertex) (w : World) : World :=
  { w.emit (.allocate_memory params ret) with
    mapped := false
    memory := (List.range (params.size / T.sizeof_Vertex)).map fresh }

/-- The store `vs_buffer[i].pos = pos` through the mapped pointer. -/
def vertex_store (i : Nat) (pos : float32 × float32 × float32) (w : World) :
    Except Crash World :=
  match w.memory[i]? with
  | none => .error ⟨.out_of_bounds, w⟩
  | some v =>
    .ok { w.emit (.vertex_store i pos) with memory := w.memory.set i { v with pos := pos } }

/-! ## The entry points -/

/-- Value of `__FUNCTION__` inside `init`. -/
def FUNCTION_init : String := "Java_com_innopeaktech_naboo_taichi_1test_NativeLib_init"

/-- Value of `__FUNCTION__` inside `resize`. -/
def FUNCTION_resize : String := "Java_com_innopeaktech_naboo_taichi_1test_NativeLib_resize"

/-- Value of `__FUNCTION__` inside `render`. -/
def FUNCTION_render : String := "Java_com_innopeaktech_naboo_taichi_1test_NativeLib_render"

/-- Lines 98-130 of `init`: kernel lookup, registration, allocation, first launch. -/
def init_kernels (T : Target) (i : InitIn) (w : World) : World :=
  -- bool ret = aot_loader.get_kernel("init", init_kernel);
  match i.aot.get_kernel "init" with
  | none =>
    let w := w.emit (.get_kernel "init" false)
    -- ALOGE(...); return;
    w.emit (.ALOGE FUNCTION_init "Cannot find \x27init\x27 kernel\n")
  | some init_kernel =>
    let w := w.emit (.get_kernel "init" true)
    -- ret = aot_loader.get_kernel("substep", substep_kernel);
    match i.aot.get_kernel "substep" with
    | none =>
      let w := w.emit (.get_kernel "substep" false)
      -- ALOGE(...); return;
      w.emit (.ALOGE FUNCTION_init "Cannot find \x27substep\x27 kernel\n")
    | some substep_kernel =>
      let w := w.emit (.get_kernel "substep" true)
      -- auto root_size = aot_loader.get_root_size();
      let root_size := i.aot.root_size
      let w := w.emit (.get_root_size root_size)
      let w := w.emit (.ALOGI FUNCTION_init "root buffer size=%d\n" [(root_size : Int)])
      -- vulkan_runtime->add_root_buffer(root_size);
      let w := w.emit (.add_root_buffer root_size)
      -- init_kernel_handle = vulkan_runtime->register_taichi_kernel(init_kernel);
      let w := w.emit (.register_taichi_kernel init_kernel i.first_handle)
      let w := { w with g := { w.g with init_kernel_handle := i.first_handle } }
      -- substep_kernel_handle = vulkan_runtime->register_taichi_kernel(substep_kernel);
      let w := w.emit (.register_taichi_kernel substep_kernel i.second_handle)
      let w := { w with g := { w.g with substep_kernel_handle := i.second_handle } }
      -- alloc_params: size = NR_PARTICLES * sizeof(Vertex), host_write, host_read
      let alloc_params : AllocParams :=
        { size := T.size_t (NR_PARTICLES * T.sizeof_Vertex), host_write := true,
          host_read := true }
      -- dalloc_circles = renderer->app_context().device().allocate_memory(alloc_params);
      let w := device_allocate_memory T alloc_params i.new_alloc i.fresh_memory w
      let w := { w with g := { w.g with dalloc_circles := i.new_alloc } }
      -- vulkan_runtime->launch_kernel(init_kernel_handle, &host_ctx);
      w.emit (.launch_kernel w.g.init_kernel_handle)

/-- Entry point `init` (lines 56-143).  Every pointer it dereferences was assigned a fresh
object just before, so it cannot fault. -/
def Java_com_innopeaktech_naboo_taichi_1test_NativeLib_init (T : Target) (i : InitIn)
    (w : World) : World :=
  -- ANativeWindow *native_window = ANativeWindow_fromSurface(env, surface);
  let w := w.emit .ANativeWindow_fromSurface
  -- AotModuleLoaderImpl aot_loader("/data/local/tmp/mpm88");
  let w := w.emit (.AotModuleLoaderImpl "/data/local/tmp/mpm88")
  -- memory_pool = std::make_unique<MemoryPool>(Arch::vulkan, nullptr);
  let w := w.emit (.MemoryPool_new .vulkan)
  let w := { w with g := { w.g with memory_pool := some ⟨.vulkan⟩ } }
  -- result_buffer = memory_pool->allocate(sizeof(uint64) * taichi_result_buffer_entries, 8);
  let result_buffer_size := T.size_t (sizeof_uint64 * T.taichi_result_buffer_entries)
  let w := w.emit (.memory_pool_allocate result_buffer_size 8)
  -- app_config
  let w := w.emit (.ANativeWindow_getWidth i.window_width)
  let w := w.emit (.ANativeWindow_getHeight i.window_height)
  let app_config : AppConfig :=
    { name := "MPM88", width := i.window_width, height := i.window_height, vsync := true,
      show_window := false, package_path := "/data/local/tmp/", ti_arch := .vulkan }
  -- renderer = new Renderer(); renderer->init(native_window, app_config);
  let w := w.emit .Renderer_new
  let w := { w with g := { w.g with renderer := some ⟨app_config⟩ } }
  let w := w.emit (.renderer_init app_config)
  -- gui = new Gui(&renderer->app_context(), &renderer->swap_chain(), native_window);
  let w := w.emit .Gui_new
  let w := { w with g := { w.g with gui := some ⟨⟩ } }
  -- vulkan_runtime = std::make_unique<VkRuntime>(std::move(params));
  let w := w.emit .VkRuntime_new
  let w := { w with g := { w.g with vulkan_runtime := some ⟨result_buffer_size⟩ } }
  init_kernels T i w

/-- Entry point `destroy` (lines 145-149): empty body. -/
def Java_com_innopeaktech_naboo_taichi_1test_NativeLib_destroy (w : World) : World := w

/-- Entry point `pause` (lines 151-155): empty body. -/
def Java_com_innopeaktech_naboo_taichi_1test_NativeLib_pause (w : World) : World := w

/-- Entry point `resume` (lines 157-161): empty body. -/
def Java_com_innopeaktech_naboo_taichi_1test_NativeLib_resume (w : World) : World := w

/-- Entry point `resize` (lines 163-170): one log line. -/
def Java_com_innopeaktech_naboo_taichi_1test_NativeLib_resize (width height : Int)
    (w : World) : World :=
  w.emit (.ALOGI FUNCTION_resize "Resize requested for %dx%d" [width, height])

/-- Loop `for (int i = 0; i < 50; i++) launch_kernel(substep_kernel_handle, &host_ctx)`. -/
def substep_loop (handle : KernelHandle) (i : Nat) (w : World) : World :=
  if i < 50 then substep_loop handle (i + 1) (w.emit (.launch_kernel handle)) else w
termination_by 50 - i

/-- Loop `for (int i = 0, j = 0; i < NR_PARTICLES; i++, j += 2)` with body
`vs_buffer[i].pos = {x[j], x[j + 1], 0.0}`.  Every access is checked; `i` and `j` stay
below `2 * NR_PARTICLES + 2`, far from the range of `int`. -/
def transcribe_loop (x : List float32) (i j : Nat) (w : World) : Except Crash World :=
  if i < NR_PARTICLES then
    match x[j]? with
    | none => .error ⟨.out_of_bounds, w⟩
    | some a =>
      let w := w.emit (.host_load j)
      match x[j + 1]? with
      | none => .error ⟨.out_of_bounds, w⟩
      | some b =>
        let w := w.emit (.host_load (j + 1))
        match vertex_store i (a, b, float32.zero) w with
        | .error c => .error c
        | .ok w => transcribe_loop x (i + 1) (j + 2) w
  else .ok w
termination_by NR_PARTICLES - i

/-- Lines 214-230 of `render`: the descriptor handed to `renderer->circles`. -/
def circles_info (dalloc_circles : DeviceAllocation) : CirclesInfo :=
  let f_info : FieldInfo :=
    { valid := true, field_type := .Scalar, matrix_rows := 1, matrix_cols := 1,
      shape := [(NR_PARTICLES : Int)], field_source := .TaichiVulkan, dtype := .f32,
      snode := none, dev_alloc := dalloc_circles }
  { renderable_info := { has_per_vertex_color := false, vbo := f_info },
    color := (0.6, 0, 1), radius := 0.0015 }

/-- The local array `float x[NR_PARTICLES * 2]` of `render` on entry: `NR_PARTICLES * 2`
floats of indeterminate contents. -/
def local_x (r : RenderIn) : List float32 := (List.range (NR_PARTICLES * 2)).map r.stack

/-- Entry point `render` (lines 172-237). -/
def Java_com_innopeaktech_naboo_taichi_1test_NativeLib_render (T : Target) (r : RenderIn)
    (w : World) : Except Crash World :=
  -- float x[NR_PARTICLES * 2];
  let x : List float32 := local_x r
  -- renderer->set_background_color({0.6, 0.6, 0.6});
  match w.g.renderer with
  | none => .error ⟨.null_deref, w⟩
  | some _ =>
  let w := w.emit (.set_background_color (0.6, 0.6, 0.6))
  -- auto start = std::chrono::steady_clock::now();
  let w := w.emit .steady_clock_now
  -- for (...) vulkan_runtime->launch_kernel(substep_kernel_handle, &host_ctx);
  match w.g.vulkan_runtime with
  | none => .error ⟨.null_deref, w⟩
  | some _ =>
  let w := substep_loop w.g.substep_kernel_handle 0 w
  -- vulkan_runtime->synchronize();
  let w := w.emit .synchronize
  -- auto end = ...; ALOGI("Execution time is %" PRId64 "ns\n", cpu_time);
  let w := w.emit .steady_clock_now
  let w := w.emit (.ALOGI FUNCTION_render ("Execution time is %" ++ T.PRId64 ++ "ns\n")
                     [r.cpu_time])
  -- vulkan_runtime->read_memory((uint8_t *)x, 0, NR_PARTICLES * 2 * sizeof(float32));
  let size := T.size_t (NR_PARTICLES * 2 * sizeof_float32)
  let w := w.emit (.read_memory 0 size)
  match read_memory r.result x 0 size with
  | none => .error ⟨.out_of_bounds, w⟩
  | some x =>
  -- vs_buffer = (Vertex *)renderer->app_context().device().map(dalloc_circles);
  match device_map w.g.dalloc_circles w with
  | .error c => .error c
  | .ok w =>
  -- for (...) vs_buffer[i].pos = {x[j], x[j + 1], 0.0};
  match transcribe_loop x 0 0 w with
  | .error c => .error c
  | .ok w =>
  -- renderer->app_context().device().unmap(dalloc_circles);
  let w := device_unmap w.g.dalloc_circles w
  -- renderer->circles(circles);
  let w := w.emit (.circles (circles_info w.g.dalloc_circles))
  -- renderer->draw_frame(gui);
  let w := w.emit .draw_frame
  -- renderer->swap_chain().surface().present_image();
  let w := w.emit .present_image
  -- renderer->prepare_for_next_frame();
  .ok (w.emit .prepare_for_next_frame)

/-! ## Sequences of lifecycle calls -/

/-- One call from the host application. -/
inductive Call where
  | init (i : InitIn)
  | destroy
  | pause
  | resume
  | resize (width height : Int)
  | render (r : RenderIn)

/-- Perform one call. -/
def step (T : Target) (c : Call) (w : World) : Except Crash World :=
  match c with
  | .init i => .ok (Java_com_innopeaktech_naboo_taichi_1test_NativeLib_init T i w)
  | .destroy => .ok (Java_com_innopeaktech_naboo_taichi_1test_NativeLib_destroy w)
  | .pause => .ok (Java_com_innopeaktech_naboo_taichi_1test_NativeLib_pause w)
  | .resume => .ok (Java_com_innopeaktech_naboo_taichi_1test_NativeLib_resume w)
  | .resize width height =>
    .ok (Java_com_innopeaktech_naboo_taichi_1test_NativeLib_resize width height w)
  | .render r => Java_com_innopeaktech_naboo_taichi_1test_NativeLib_render T r w

/-- Perform a sequence of calls; a fault ends the process. -/
def run (T : Target) : List Call → World → Except Crash World
  | [], w => .ok w
  | c :: cs, w =>
    match step T c w with
    | .error e => .error e
    | .ok w => run T cs w

/-- The world at the end of an execution, faulted or not. -/
def finalWorld : Except Crash World → World
  | .ok w => w
  | .error c => c.world

/-- The events an execution added to a trace that had `n` events. -/
def eventsFrom (n : Nat) (res : Except Crash World) : List Event :=
  (finalWorld res).trace.drop n

/-! ## Reading traces -/

/-- Is the event a `launch_kernel` call? -/
@[simp] def Event.isLaunch : Event → Bool
  | .launch_kernel _ => true
  | _ => false

/-- Is the event a `synchronize` call? -/
@[simp] def Event.isSynchronize : Event → Bool
  | .synchronize => true
  | _ => false

/-- Is the event a `read_memory` call? -/
@[simp] def Event.isRead : Event → Bool
  | .read_memory _ _ => true
  | _ => false

/-- Is the event a `register_taichi_kernel` call? -/
@[simp] def Event.isRegister : Event → Bool
  | .register_taichi_kernel _ _ => true
  | _ => false

/-- Is the event an `add_root_buffer` call? -/
@[simp] def Event.isAddRootBuffer : Event → Bool
  | .add_root_buffer _ => true
  | _ => false

/-- Is the event a device `allocate_memory` call? -/
@[simp] def Event.isAllocate : Event → Bool
  | .allocate_memory _ _ => true
  | _ => false

/-- Is the event an error report? -/
@[simp] def Event.isError : Event → Bool
  | .ALOGE _ _ => true
  | _ => false

/-- Is the event a device `map` call? -/
@[simp] def Event.isMap : Event → Bool
  | .map _ => true
  | _ => false

/-- Is the event a device `unmap` call? -/
@[simp] def Event.isUnmap : Event → Bool
  | .unmap _ => true
  | _ => false

/-- Is the event a store through the mapped pointer? -/
@[simp] def Event.isStore : Event → Bool
  | .vertex_store _ _ => true
  | _ => false

/-- Is the event an access of the transcription loop (a load from `x` or a store)? -/
@[simp] def Event.isAccess : Event → Bool
  | .host_load _ => true
  | .vertex_store _ _ => true
  | _ => false

/-- Is the event a `renderer->circles` call? -/
@[simp] def Event.isCircles : Event → Bool
  | .circles _ => true
  | _ => false

/-- Is the event a `draw_frame` call? -/
@[simp] def Event.isDrawFrame : Event → Bool
  | .draw_frame => true
  | _ => false

/-- Is the event a `present_image` call? -/
@[simp] def Event.isPresent : Event → Bool
  | .present_image => true
  | _ => false

/-- Is the event a `prepare_for_next_frame` call? -/
@[simp] def Event.isPrepare : Event → Bool
  | .prepare_for_next_frame => true
  | _ => false

/-- Is the event one of the four frame calls: circles, draw, present, prepare? -/
@[simp] def Event.isFrameCall : Event → Bool
  | .circles _ => true
  | .draw_frame => true
  | .present_image => true
  | .prepare_for_next_frame => true
  | _ => false

/-- Is the event a call on the memory pool, the runtime, the device (a store into its
mapped memory included) or the renderer and its gui? -/
@[simp] def Event.isLibraryCall : Event → Bool
  | .MemoryPool_new _ => true
  | .memory_pool_allocate _ _ => true
  | .Renderer_new => true
  | .renderer_init _ => true
  | .Gui_new => true
  | .VkRuntime_new => true
  | .add_root_buffer _ => true
  | .register_taichi_kernel _ _ => true
  | .allocate_memory _ _ => true
  | .launch_kernel _ => true
  | .set_background_color _ => true
  | .synchronize => true
  | .read_memory _ _ => true
  | .map _ => true
  | .vertex_store _ _ => true
  | .unmap _ => true
  | .circles _ => true
  | .draw_frame => true
  | .present_image => true
  | .prepare_for_next_frame => true
  | _ => false

/-- Index of the slot a store writes. -/
@[simp] def Event.storeIndex : Event → Option Nat
  | .vertex_store i _ => some i
  | _ => none

/-- Index of the element of `x` a load reads. -/
@[simp] def Event.loadIndex : Event → Option Nat
  | .host_load j => some j
  | _ => none

/-- Events of iteration `i` of the transcription loop over the host array `x`. -/
def iter_events (x : List float32) (i : Nat) : List Event :=
  [.host_load (2 * i), .host_load (2 * i + 1),
   .vertex_store i (x[2 * i]?.getD float32.zero, x[2 * i + 1]?.getD float32.zero,
     float32.zero)]

/-- Memory after iterations `i, i+1, ..., i+k-1` of the transcription loop. -/
def stores (x : List float32) : Nat → Nat → List Vertex → List Vertex
  | _, 0, mem => mem
  | i, k + 1, mem =>
    match mem[i]? with
    | none => mem
    | some v =>
      stores x (i + 1) k
        (mem.set i { v with pos := (x[2 * i]?.getD float32.zero,
                                    x[2 * i + 1]?.getD float32.zero, float32.zero) })

/-- Byte count `render` passes to `read_memory`. -/
def read_size (T : Target) : Nat := T.size_t (NR_PARTICLES * 2 * sizeof_float32)

/-- Contents of the host array `x` after the read. -/
def host_x (T : Target) (r : RenderIn) : List float32 :=
  (List.range (read_size T / sizeof_float32)).map (fun k => r.result (0 / sizeof_float32 + k))
    ++ (local_x r).drop (read_size T / sizeof_float32)

/-- Events of the substep loop: fifty launches of one handle. -/
def substep_launches (handle : KernelHandle) : List Event :=
  List.replicate 50 (.launch_kernel handle)

/-- Events of the whole transcription loop over the host array `x`. -/
def transcribe_events (x : List float32) : List Event :=
  (List.range' 0 NR_PARTICLES).flatMap (iter_events x)

/-- Events of `render` up to and including the `map` call. -/
def render_head (T : Target) (r : RenderIn) (g : Globals) : List Event :=
  [.set_background_color (0.6, 0.6, 0.6), .steady_clock_now]
    ++ substep_launches g.substep_kernel_handle
    ++ [.synchronize, .steady_clock_now,
        .ALOGI FUNCTION_render ("Execution time is %" ++ T.PRId64 ++ "ns\n") [r.cpu_time],
        .read_memory 0 (read_size T), .map g.dalloc_circles]

/-- Events of `render` from the `unmap` call on. -/
def render_tail (g : Globals) : List Event :=
  [.unmap g.dalloc_circles, .circles (circles_info g.dalloc_circles), .draw_frame,
   .present_image, .prepare_for_next_frame]

/-- Events of `init` before the kernel lookup. -/
def init_head (T : Target) (i : InitIn) : List Event :=
  [.ANativeWindow_fromSurface, .AotModuleLoaderImpl "/data/local/tmp/mpm88",
   .MemoryPool_new .vulkan,
   .memory_pool_allocate (T.size_t (sizeof_uint64 * T.taichi_result_buffer_entries)) 8,
   .ANativeWindow_getWidth i.window_width, .ANativeWindow_getHeight i.window_height,
   .Renderer_new,
   .renderer_init { name := "MPM88", width := i.window_width, height := i.window_height,
                    vsync := true, show_window := false,
                    package_path := "/data/local/tmp/", ti_arch := .vulkan },
   .Gui_new, .VkRuntime_new]

/-- Events of `init` from the kernel lookup on when "init" is missing. -/
def init_tail_no_init : List Event :=
  [.get_kernel "init" false, .ALOGE FUNCTION_init "Cannot find \x27init\x27 kernel\n"]

/-- Events of `init` from the kernel lookup on when only "substep" is missing. -/
def init_tail_no_substep : List Event :=
  [.get_kernel "init" true, .get_kernel "substep" false,
   .ALOGE FUNCTION_init "Cannot find \x27substep\x27 kernel\n"]

/-- The allocation request of `init`. -/
def init_alloc_params (T : Target) : AllocParams :=
  { size := T.size_t (NR_PARTICLES * T.sizeof_Vertex), host_write := true, host_read := true }

/-- Events of `init` from the kernel lookup on when both kernels are found. -/
def init_tail_complete (T : Target) (i : InitIn) (p1 p2 : RegisterParams) : List Event :=
  [.get_kernel "init" true, .get_kernel "substep" true, .get_root_size i.aot.root_size,
   .ALOGI FUNCTION_init "root buffer size=%d\n" [(i.aot.root_size : Int)],
   .add_root_buffer i.aot.root_size,
   .register_taichi_kernel p1 i.first_handle, .register_taichi_kernel p2 i.second_handle,
   .allocate_memory (init_alloc_params T) i.new_alloc, .launch_kernel i.first_handle]

/-- The globals after the part of `init` that precedes the kernel lookup. -/
def init_globals (T : Target) (i : InitIn) (g : Globals) : Globals :=
  { g with
    memory_pool := some ⟨.vulkan⟩
    renderer := some ⟨{ name := "MPM88", width := i.window_width, height := i.window_height,
                        vsync := true, show_window := false,
                        package_path := "/data/local/tmp/", ti_arch := .vulkan }⟩
    gui := some ⟨⟩
    vulkan_runtime := some ⟨T.size_t (sizeof_uint64 * T.taichi_result_buffer_entries)⟩ }

/-- The events one call of `init` issues in a world. -/
def init_events (T : Target) (i : InitIn) (w : World) : List Event :=
  (Java_com_innopeaktech_naboo_taichi_1test_NativeLib_init T i w).trace.drop w.trace.length

/-- The events one call of `render` issues in a world, up to its return or its fault. -/
def render_events (T : Target) (r : RenderIn) (w : World) : List Event :=
  eventsFrom w.trace.length (Java_com_innopeaktech_naboo_taichi_1test_NativeLib_render T r w)

/-- Both kernels `init` looks up are in the module. -/
def InitIn.complete (i : InitIn) : Bool :=
  (i.aot.get_kernel "init").isSome && (i.aot.get_kernel "substep").isSome

/-- Every `launch_kernel` of the trace uses a handle that an earlier
`register_taichi_kernel` of the trace returned. -/
def LaunchesRegistered (t : List Event) : Prop :=
  ∀ pre h post, t = pre ++ Event.launch_kernel h :: post →
    ∃ p, Event.register_taichi_kernel p h ∈ pre

/-- The handle `h` was returned by a registration on the runtime that is current at the end
of `pre`: some `register_taichi_kernel` of `pre` returned it, and no runtime was created
after that registration. -/
def RegisteredOnRuntime (pre : List Event) (h : KernelHandle) : Prop :=
  ∃ a p b, pre = a ++ Event.register_taichi_kernel p h :: b ∧ Event.VkRuntime_new ∉ b

/-- Every `launch_kernel` of the trace uses a handle that an earlier
`register_taichi_kernel` returned on the runtime the launch goes to. -/
def LaunchesRegisteredOnRuntime (t : List Event) : Prop :=
  ∀ pre h post, t = pre ++ Event.launch_kernel h :: post → RegisteredOnRuntime pre h

/-- Since the last creation of a runtime nothing was registered. -/
def NoRegistrationOnRuntime (t : List Event) : Prop :=
  ∃ a b, t = a ++ Event.VkRuntime_new :: b ∧ ∀ e ∈ b, e.isRegister = false

/-- Where a sequence of calls stands: before any `init`, after an `init` that found both
kernels, or after an `init` that stopped because a kernel was missing (the most recent
`init` decides). -/
inductive Phase where
  | fresh | complete | failed
deriving DecidableEq, Repr

/-- No `render` is called while the most recent `init` is one that stopped because a
kernel was missing.  A `render` before any `init` dereferences the null renderer, which
ends the process, so the calls after it do not matter. -/
def guardedFrom : Phase → List Call → Bool
  | _, [] => true
  | _, .init i :: cs => guardedFrom (if i.complete then .complete else .failed) cs
  | .fresh, .render _ :: _ => true
  | .complete, .render _ :: cs => guardedFrom .complete cs
  | .failed, .render _ :: _ => false
  | ph, .destroy :: cs => guardedFrom ph cs
  | ph, .pause :: cs => guardedFrom ph cs
  | ph, .resume :: cs => guardedFrom ph cs
  | ph, .resize _ _ :: cs => guardedFrom ph cs

/-- The guard on a whole sequence of calls, from process start. -/
def guarded (calls : List Call) : Bool := guardedFrom .fresh calls

/-! ## Concrete inputs -/

/-- A 64-bit platform with a 44-byte `Vertex`. -/
def T0 : Target :=
  { sizeof_Vertex := 44, size_t_bits := 64, taichi_result_buffer_entries := 32,
    PRId64 := "ld", KernelHandle_default := ⟨-1⟩, DeviceAllocation_default := ⟨-1⟩ }

/-- A module with both kernels. -/
def module_full : AotModule :=
  { kernels := [("init", ⟨1⟩), ("substep", ⟨2⟩)], root_size := 100 }

/-- A module without the kernel "substep". -/
def module_no_substep : AotModule :=
  { kernels := [("init", ⟨1⟩)], root_size := 100 }

/-- Inputs of an `init` call that reads the module `m`. -/
def init_in (m : AotModule) : InitIn :=
  { aot := m, window_width := 1080, window_height := 1920, first_handle := ⟨0⟩,
    second_handle := ⟨1⟩, new_alloc := ⟨7⟩,
    fresh_memory := fun _ => ⟨(⟨9⟩, ⟨9⟩, ⟨9⟩), []⟩ }

/-- Inputs of a `render` call. -/
def render_in : RenderIn :=
  { stack := fun _ => ⟨5⟩, result := fun k => ⟨k + 100⟩, cpu_time := 3 }

/-- The world after a complete `init` on the concrete platform. -/
def world_ready : World :=
  Java_com_innopeaktech_naboo_taichi_1test_NativeLib_init T0 (init_in module_full)
    (World.initial T0)

/-- The world has a registered substep handle: every launch so far went to a runtime that
had returned its handle, and the handle in `substep_kernel_handle` was returned by the
current runtime. -/
def Ready (w : World) : Prop :=
  LaunchesRegisteredOnRuntime w.trace
    ∧ RegisteredOnRuntime w.trace w.g.substep_kernel_handle

/-- What holds of the world in each phase, on any platform. -/
def PhaseInv : Phase → World → Prop
  | .fresh, w => w.g.renderer = none ∧ LaunchesRegisteredOnRuntime w.trace
  | .complete, w => Ready w
  | .failed, w => LaunchesRegisteredOnRuntime w.trace

/-- An `init` on a module without "substep", then a `render`. -/
def calls_render_after_failed_init : List Call :=
  [.init (init_in module_no_substep), .render render_in]

/-- An `init` that stops because "substep" is missing, a `resize`, a complete `init`, two
`render`, and again an `init` that stops, followed by a `pause`. -/
def calls_guarded : List Call :=
  [.init (init_in module_no_substep), .resize 720 1280, .init (init_in module_full),
   .render render_in, .render render_in, .init (init_in module_no_substep), .pause]

/-- The world is set up for `render`: live renderer and runtime, and an unmapped allocation
of exactly `NR_PARTICLES` vertices. -/
def Good (w : World) : Prop :=
  w.g.renderer.isSome ∧ w.g.vulkan_runtime.isSome ∧ w.mapped = false
    ∧ w.memory.length = NR_PARTICLES

/-- What holds of the world in each phase on a sane platform. -/
def PhaseOk : Phase → World → Prop
  | .fresh, w => w.g.renderer = none
  | .complete, w => Good w
  | .failed, w => w.g.renderer.isSome ∧ w.g.vulkan_runtime.isSome
      ∧ NoRegistrationOnRuntime w.trace

/-- The world after an `init` that stops because "substep" is missing, on the concrete
platform. -/
def world_failed : World :=
  Java_com_innopeaktech_naboo_taichi_1test_NativeLib_init T0 (init_in module_no_substep)
    (World.initial T0)

/-- A complete `init`, then an `init` that stops because "substep" is missing, then a
`render`. -/
def calls_render_after_failed_reinit : List Call :=
  [.init (init_in module_full), .init (init_in module_no_substep), .render render_in]

/-- A `render` before any `init`, followed by more calls. -/
def calls_render_first : List Call :=
  [.render render_in, .init (init_in module_no_substep), .render render_in]

/-! ## Lemmas -/

theorem emit_trace (w : World) (e : Event) : (w.emit e).trace = w.trace ++ [e] := rfl

/-- The substep loop appends one launch per remaining iteration and changes nothing else. -/
theorem substep_loop_eq (handle : KernelHandle) :
    ∀ (k i : Nat) (w : World), 50 - i = k →
      substep_loop handle i w
        = { w with trace := w.trace ++ List.replicate k (Event.launch_kernel handle) } := by
  intro k
  induction k with
  | zero =>
    intro i w h
    rw [substep_loop, if_neg (by omega)]
    simp
  | succ k ih =>
    intro i w h
    rw [substep_loop, if_pos (by omega), ih (i + 1) _ (by omega)]
    simp [World.emit, List.replicate_succ]

theorem stores_length (x : List float32) :
    ∀ (k i : Nat) (mem : List Vertex), (stores x i k mem).length = mem.length := by
  intro k
  induction k with
  | zero => intro i mem; rfl
  | succ k ih =>
    intro i mem
    unfold stores
    cases h : mem[i]? with
    | none => rfl
    | some v => simp [ih]

/-- Slot `m` after the stores of iterations `i .. i+k-1`. -/
theorem stores_getElem? (x : List float32) :
    ∀ (k i : Nat) (mem : List Vertex) (m : Nat), i + k ≤ mem.length →
      (stores x i k mem)[m]?
        = if i ≤ m ∧ m < i + k then
            mem[m]?.map (fun v => { v with pos := (x[2 * m]?.getD float32.zero,
                                      x[2 * m + 1]?.getD float32.zero, float32.zero) })
          else mem[m]? := by
  intro k
  induction k with
  | zero =>
    intro i mem m _
    rw [if_neg (by omega)]
    rfl
  | succ k ih =>
    intro i mem m h
    have hi : i < mem.length := by omega
    unfold stores
    simp only [List.getElem?_eq_getElem hi]
    rw [ih (i + 1) _ m (by simp; omega)]
    by_cases hm : m = i
    · subst hm
      rw [if_neg (by omega), if_pos (by omega), List.getElem?_set_self hi,
        List.getElem?_eq_getElem hi]
      rfl
    · rw [List.getElem?_set_ne (Ne.symm hm)]
      by_cases h1 : i + 1 ≤ m ∧ m < i + 1 + k
      · rw [if_pos h1, if_pos (by omega)]
      · rw [if_neg h1, if_neg (by omega)]

/-- With room in `x` and in the mapped memory the transcription loop runs to its end. -/
theorem transcribe_loop_ok (x : List float32) (hx : 2 * NR_PARTICLES ≤ x.length) :
    ∀ (k i : Nat) (w : World), NR_PARTICLES - i = k → i ≤ NR_PARTICLES →
      NR_PARTICLES ≤ w.memory.length →
      transcribe_loop x i (2 * i) w
        = .ok { w with trace := w.trace ++ (List.range' i k).flatMap (iter_events x)
                       memory := stores x i k w.memory } := by
  intro k
  induction k with
  | zero =>
    intro i w h hi hm
    rw [transcribe_loop, if_neg (by omega)]
    simp [stores]
  | succ k ih =>
    intro i w h hi hm
    have h1 : 2 * i < x.length := by omega
    have h2 : 2 * i + 1 < x.length := by omega
    have h3 : i < w.memory.length := by omega
    rw [transcribe_loop, if_pos (by omega)]
    simp only [List.getElem?_eq_getElem h1, List.getElem?_eq_getElem h2, vertex_store,
      emit_trace, World.emit, List.getElem?_eq_getElem h3]
    have e : 2 * i + 2 = 2 * (i + 1) := by ring
    rw [e, ih (i + 1) _ (by omega) (by omega) (by simpa using hm)]
    simp [stores, List.getElem?_eq_getElem h3, List.range'_succ, iter_events,
      List.getElem?_eq_getElem h1, List.getElem?_eq_getElem h2]

/-- Whatever its outcome, the transcription loop only adds accesses to the trace and
leaves the globals alone. -/
theorem transcribe_loop_frame (x : List float32) :
    ∀ (k i j : Nat) (w : World), NR_PARTICLES - i = k →
      ∃ ev, (finalWorld (transcribe_loop x i j w)).trace = w.trace ++ ev
        ∧ (∀ e ∈ ev, e.isAccess = true)
        ∧ (finalWorld (transcribe_loop x i j w)).g = w.g := by
  intro k
  induction k with
  | zero =>
    intro i j w h
    rw [transcribe_loop, if_neg (by omega)]
    exact ⟨[], by simp [finalWorld], by simp, rfl⟩
  | succ k ih =>
    intro i j w h
    rw [transcribe_loop, if_pos (by omega)]
    cases h1 : x[j]? with
    | none => exact ⟨[], by simp [finalWorld], by simp, rfl⟩
    | some a =>
      cases h2 : x[j + 1]? with
      | none => exact ⟨[.host_load j], by simp [finalWorld, World.emit], by simp, rfl⟩
      | some b =>
        cases h3 : (w.memory)[i]? with
        | none =>
          refine ⟨[.host_load j, .host_load (j + 1)], ?_, by simp, ?_⟩ <;>
            simp [finalWorld, World.emit, vertex_store, h3]
        | some v =>
          simp only [vertex_store, World.emit, h3]
          obtain ⟨ev, he, ha, hg⟩ := ih (i + 1) (j + 2)
            { g := w.g, mapped := w.mapped,
              memory := w.memory.set i { v with pos := (a, b, float32.zero) },
              trace := w.trace ++ [.host_load j] ++ [.host_load (j + 1)]
                ++ [.vertex_store i (a, b, float32.zero)] } (by omega)
          refine ⟨[.host_load j, .host_load (j + 1), .vertex_store i (a, b, float32.zero)]
            ++ ev, ?_, ?_, ?_⟩
          · rw [he]; simp
          · intro e hmem
            rcases List.mem_append.mp hmem with h | h
            · simp at h; rcases h with h | h | h <;> subst h <;> rfl
            · exact ha e h
          · rw [hg]

theorem size_t_le (T : Target) (n : Nat) : T.size_t n ≤ n := Nat.mod_le _ _

/-- The read never overruns `x`: at most `NR_PARTICLES * 2 * 4` bytes go into an array of
`NR_PARTICLES * 2` floats. -/
theorem read_memory_host (T : Target) (r : RenderIn) :
    read_memory r.result (local_x r) 0 (read_size T) = some (host_x T r) := by
  have h : read_size T ≤ NR_PARTICLES * 2 * sizeof_float32 := size_t_le T _
  unfold read_memory
  rw [if_pos (by simp [local_x, sizeof_float32, NR_PARTICLES] at h ⊢; omega)]
  rfl

theorem host_x_length (T : Target) (r : RenderIn) :
    (host_x T r).length = 2 * NR_PARTICLES := by
  have h : read_size T ≤ NR_PARTICLES * 2 * sizeof_float32 := size_t_le T _
  simp [host_x, local_x, sizeof_float32, NR_PARTICLES] at h ⊢
  omega

/-- With at least 32 bits in `size_t` the read covers the whole of `x`. -/
theorem read_size_eq (T : Target) (h : 32 ≤ T.size_t_bits) : read_size T = 65536 := by
  have h1 : 2 ^ 32 ≤ 2 ^ T.size_t_bits := Nat.pow_le_pow_right (by decide) h
  unfold read_size Target.size_t
  rw [Nat.mod_eq_of_lt (by simp [NR_PARTICLES, sizeof_float32]; omega)]
  rfl

theorem host_x_getElem? (T : Target) (r : RenderIn) (h : 32 ≤ T.size_t_bits) (j : Nat)
    (hj : j < 2 * NR_PARTICLES) : (host_x T r)[j]? = some (r.result j) := by
  have hj2 : j < 65536 / sizeof_float32 := by
    have : (65536 : Nat) / sizeof_float32 = 2 * NR_PARTICLES := by decide
    omega
  unfold host_x
  rw [read_size_eq T h, List.getElem?_append_left (by rw [List.length_map, List.length_range]; exact hj2),
    List.getElem?_map, List.getElem?_range hj2]
  simp

/-- The whole substep loop. -/
theorem substep_loop_all (handle : KernelHandle) (w : World) :
    substep_loop handle 0 w = { w with trace := w.trace ++ substep_launches handle } :=
  substep_loop_eq handle 50 0 w rfl

/-- The whole transcription loop. -/
theorem transcribe_loop_all (x : List float32) (hx : 2 * NR_PARTICLES ≤ x.length)
    (w : World) (hc : NR_PARTICLES ≤ w.memory.length) :
    transcribe_loop x 0 0 w
      = .ok { w with trace := w.trace ++ transcribe_events x
                     memory := stores x 0 NR_PARTICLES w.memory } :=
  transcribe_loop_ok x hx NR_PARTICLES 0 w rfl (Nat.zero_le _) hc

/-- A `render` that starts with live pointers, an unmapped allocation and room for
`NR_PARTICLES` vertices returns, and this is the world it returns. -/
theorem render_ok (T : Target) (r : RenderIn) (w : World)
    (hr : w.g.renderer.isSome) (hv : w.g.vulkan_runtime.isSome) (hm : w.mapped = false)
    (hc : NR_PARTICLES ≤ w.memory.length) :
    Java_com_innopeaktech_naboo_taichi_1test_NativeLib_render T r w
      = .ok { g := w.g, mapped := false,
              memory := stores (host_x T r) 0 NR_PARTICLES w.memory,
              trace := w.trace ++ (render_head T r w.g
                ++ transcribe_events (host_x T r) ++ render_tail w.g) } := by
  obtain ⟨rd, hrd⟩ := Option.isSome_iff_exists.mp hr
  obtain ⟨vk, hvk⟩ := Option.isSome_iff_exists.mp hv
  have hx : 2 * NR_PARTICLES ≤ (host_x T r).length := le_of_eq (host_x_length T r).symm
  unfold Java_com_innopeaktech_naboo_taichi_1test_NativeLib_render
  simp only [hrd, hvk, World.emit, substep_loop_all]
  rw [show T.size_t (NR_PARTICLES * 2 * sizeof_float32) = read_size T from rfl,
    read_memory_host]
  simp only [device_map, World.emit, hm, Bool.false_eq_true, if_false]
  rw [transcribe_loop_all (host_x T r) hx]
  · simp [device_unmap, World.emit, render_head, render_tail]
  · exact hc

theorem transcribe_loop_frame_of (x : List float32) (i j : Nat) (w : World)
    (res : Except Crash World) (h : transcribe_loop x i j w = res) :
    ∃ ev, (finalWorld res).trace = w.trace ++ ev ∧ (∀ e ∈ ev, e.isAccess = true)
      ∧ (finalWorld res).g = w.g := by
  subst h
  exact transcribe_loop_frame x _ i j w rfl

/-- A `render` that starts with live pointers issues the events of `render_head` in any
case, and after them only accesses of the loop and events of `render_tail`. -/
theorem render_prefix (T : Target) (r : RenderIn) (w : World)
    (hr : w.g.renderer.isSome) (hv : w.g.vulkan_runtime.isSome) :
    ∃ rest,
      (finalWorld (Java_com_innopeaktech_naboo_taichi_1test_NativeLib_render T r w)).trace
          = w.trace ++ (render_head T r w.g ++ rest)
      ∧ (∀ e ∈ rest, e.isAccess = true ∨ e ∈ render_tail w.g)
      ∧ (finalWorld (Java_com_innopeaktech_naboo_taichi_1test_NativeLib_render T r w)).g
          = w.g := by
  obtain ⟨rd, hrd⟩ := Option.isSome_iff_exists.mp hr
  obtain ⟨vk, hvk⟩ := Option.isSome_iff_exists.mp hv
  unfold Java_com_innopeaktech_naboo_taichi_1test_NativeLib_render
  simp only [hrd, hvk, World.emit, substep_loop_all]
  rw [show T.size_t (NR_PARTICLES * 2 * sizeof_float32) = read_size T from rfl,
    read_memory_host]
  simp only [device_map, World.emit]
  cases hm : w.mapped with
  | true =>
    refine ⟨[], ?_, by simp, ?_⟩ <;> simp [finalWorld, render_head]
  | false =>
    simp only [Bool.false_eq_true, if_false]
    split
    · rename_i c heq
      obtain ⟨ev, he, ha, hg⟩ := transcribe_loop_frame_of _ _ _ _ _ heq
      refine ⟨ev, ?_, fun e h => Or.inl (ha e h), ?_⟩
      · simp only [finalWorld] at he ⊢
        rw [he]; simp [render_head]
      · simpa [finalWorld] using hg
    · rename_i w2 heq
      obtain ⟨ev, he, ha, hg⟩ := transcribe_loop_frame_of _ _ _ _ _ heq
      simp only [finalWorld] at he hg
      refine ⟨ev ++ render_tail w.g, ?_, ?_, ?_⟩
      · simp [finalWorld, device_unmap, World.emit, he, hg, render_head, render_tail]
      · intro e h
        rcases List.mem_append.mp h with h | h
        · exact Or.inl (ha e h)
        · exact Or.inr h
      · simp [finalWorld, device_unmap, World.emit, hg]

/-- A `render` that starts with a null renderer faults at once and issues nothing. -/
theorem render_null_renderer (T : Target) (r : RenderIn) (w : World)
    (hr : w.g.renderer = none) :
    Java_com_innopeaktech_naboo_taichi_1test_NativeLib_render T r w
      = .error ⟨.null_deref, w⟩ := by
  unfold Java_com_innopeaktech_naboo_taichi_1test_NativeLib_render
  simp only [hr]

/-- A `render` that starts with a live renderer and a null runtime faults after the two
events that precede the loop. -/
theorem render_null_runtime (T : Target) (r : RenderIn) (w : World)
    (hr : w.g.renderer.isSome) (hv : w.g.vulkan_runtime = none) :
    Java_com_innopeaktech_naboo_taichi_1test_NativeLib_render T r w
      = .error ⟨.null_deref,
          { w with trace := w.trace ++ [.set_background_color (0.6, 0.6, 0.6),
                                        .steady_clock_now] }⟩ := by
  obtain ⟨rd, hrd⟩ := Option.isSome_iff_exists.mp hr
  unfold Java_com_innopeaktech_naboo_taichi_1test_NativeLib_render
  simp [hrd, hv, World.emit]

/-- The world after an `init` that does not find the kernel "init". -/
theorem init_no_init (T : Target) (i : InitIn) (w : World)
    (h1 : i.aot.get_kernel "init" = none) :
    Java_com_innopeaktech_naboo_taichi_1test_NativeLib_init T i w
      = { w with g := init_globals T i w.g
                 trace := w.trace ++ (init_head T i ++ init_tail_no_init) } := by
  unfold Java_com_innopeaktech_naboo_taichi_1test_NativeLib_init init_kernels
  simp [h1, World.emit, init_globals, init_head, init_tail_no_init]

/-- The world after an `init` that finds "init" and does not find "substep". -/
theorem init_no_substep (T : Target) (i : InitIn) (w : World) (p1 : RegisterParams)
    (h1 : i.aot.get_kernel "init" = some p1) (h2 : i.aot.get_kernel "substep" = none) :
    Java_com_innopeaktech_naboo_taichi_1test_NativeLib_init T i w
      = { w with g := init_globals T i w.g
                 trace := w.trace ++ (init_head T i ++ init_tail_no_substep) } := by
  unfold Java_com_innopeaktech_naboo_taichi_1test_NativeLib_init init_kernels
  simp [h1, h2, World.emit, init_globals, init_head, init_tail_no_substep]

/-- The world after an `init` that finds both kernels. -/
theorem init_complete (T : Target) (i : InitIn) (w : World) (p1 p2 : RegisterParams)
    (h1 : i.aot.get_kernel "init" = some p1) (h2 : i.aot.get_kernel "substep" = some p2) :
    Java_com_innopeaktech_naboo_taichi_1test_NativeLib_init T i w
      = { g := { init_globals T i w.g with
                 init_kernel_handle := i.first_handle
                 substep_kernel_handle := i.second_handle
                 dalloc_circles := i.new_alloc }
          mapped := false
          memory := (List.range ((init_alloc_params T).size / T.sizeof_Vertex)).map
                      i.fresh_memory
          trace := w.trace ++ (init_head T i ++ init_tail_complete T i p1 p2) } := by
  unfold Java_com_innopeaktech_naboo_taichi_1test_NativeLib_init init_kernels
  simp [h1, h2, World.emit, init_globals, init_head, init_tail_complete,
    device_allocate_memory, init_alloc_params]

/-- On a sane platform the allocation of `init` holds exactly `NR_PARTICLES` vertices. -/
theorem init_alloc_capacity (T : Target) (hT : T.ok) :
    (init_alloc_params T).size = NR_PARTICLES * T.sizeof_Vertex
      ∧ (init_alloc_params T).size / T.sizeof_Vertex = NR_PARTICLES := by
  obtain ⟨h0, _, h2⟩ := hT
  have e : (init_alloc_params T).size = NR_PARTICLES * T.sizeof_Vertex := by
    simp only [init_alloc_params, Target.size_t]
    exact Nat.mod_eq_of_lt h2
  exact ⟨e, by rw [e]; exact Nat.mul_div_cancel _ h0⟩

theorem complete_iff (i : InitIn) :
    i.complete = true ↔ ∃ p1 p2, i.aot.get_kernel "init" = some p1
      ∧ i.aot.get_kernel "substep" = some p2 := by
  unfold InitIn.complete
  cases i.aot.get_kernel "init" <;> cases i.aot.get_kernel "substep" <;> simp

/-- After any `init` the renderer and the runtime are live. -/
theorem init_pointers (T : Target) (i : InitIn) (w : World) :
    (Java_com_innopeaktech_naboo_taichi_1test_NativeLib_init T i w).g.renderer.isSome
      ∧ (Java_com_innopeaktech_naboo_taichi_1test_NativeLib_init T i w).g.vulkan_runtime.isSome := by
  cases h1 : i.aot.get_kernel "init" with
  | none => rw [init_no_init T i w h1]; simp [init_globals]
  | some p1 =>
    cases h2 : i.aot.get_kernel "substep" with
    | none => rw [init_no_substep T i w p1 h1 h2]; simp [init_globals]
    | some p2 => rw [init_complete T i w p1 p2 h1 h2]; simp [init_globals]

/-- The state a complete `init` reaches on a sane platform. -/
theorem init_ready (T : Target) (i : InitIn) (w : World) (hT : T.ok)
    (hi : i.complete = true) :
    (Java_com_innopeaktech_naboo_taichi_1test_NativeLib_init T i w).mapped = false
      ∧ (Java_com_innopeaktech_naboo_taichi_1test_NativeLib_init T i w).memory.length
          = NR_PARTICLES
      ∧ (Java_com_innopeaktech_naboo_taichi_1test_NativeLib_init T i w).g.init_kernel_handle
          = i.first_handle
      ∧ (Java_com_innopeaktech_naboo_taichi_1test_NativeLib_init T i w).g.substep_kernel_handle
          = i.second_handle
      ∧ (Java_com_innopeaktech_naboo_taichi_1test_NativeLib_init T i w).g.dalloc_circles
          = i.new_alloc := by
  obtain ⟨p1, p2, h1, h2⟩ := (complete_iff i).mp hi
  rw [init_complete T i w p1 p2 h1 h2]
  refine ⟨rfl, ?_, rfl, rfl, rfl⟩
  rw [List.length_map, List.length_range]
  exact (init_alloc_capacity T hT).2

theorem init_events_no_init (T : Target) (i : InitIn) (w : World)
    (h1 : i.aot.get_kernel "init" = none) :
    init_events T i w = init_head T i ++ init_tail_no_init := by
  rw [init_events, init_no_init T i w h1]
  exact List.drop_left _ _

theorem init_events_no_substep (T : Target) (i : InitIn) (w : World) (p1 : RegisterParams)
    (h1 : i.aot.get_kernel "init" = some p1) (h2 : i.aot.get_kernel "substep" = none) :
    init_events T i w = init_head T i ++ init_tail_no_substep := by
  rw [init_events, init_no_substep T i w p1 h1 h2]
  exact List.drop_left _ _

theorem init_events_complete (T : Target) (i : InitIn) (w : World) (p1 p2 : RegisterParams)
    (h1 : i.aot.get_kernel "init" = some p1) (h2 : i.aot.get_kernel "substep" = some p2) :
    init_events T i w = init_head T i ++ init_tail_complete T i p1 p2 := by
  rw [init_events, init_complete T i w p1 p2 h1 h2]
  exact List.drop_left _ _

/-- The events of a `render` that returns. -/
theorem render_events_ok (T : Target) (r : RenderIn) (w : World)
    (hr : w.g.renderer.isSome) (hv : w.g.vulkan_runtime.isSome) (hm : w.mapped = false)
    (hc : NR_PARTICLES ≤ w.memory.length) :
    render_events T r w
      = render_head T r w.g ++ transcribe_events (host_x T r) ++ render_tail w.g := by
  rw [render_events, render_ok T r w hr hv hm hc]
  exact List.drop_left _ _

theorem mem_substep_launches (handle : KernelHandle) (e : Event) :
    e ∈ substep_launches handle ↔ e = .launch_kernel handle := by
  simp only [substep_launches, List.mem_replicate]
  constructor
  · exact fun h => h.2
  · exact fun h => ⟨by decide, h⟩

theorem mem_iter_events (x : List float32) (i : Nat) (e : Event) (h : e ∈ iter_events x i) :
    e.isAccess = true := by
  simp only [iter_events, List.mem_cons, List.mem_singleton, List.not_mem_nil, or_false] at h
  rcases h with h | h | h <;> subst h <;> rfl

theorem mem_transcribe_events (x : List float32) (e : Event)
    (h : e ∈ transcribe_events x) : e.isAccess = true := by
  obtain ⟨i, _, hi⟩ := List.mem_flatMap.mp h
  exact mem_iter_events x i e hi

/-- A predicate that rejects the accesses of the loop selects nothing from them. -/
theorem filter_transcribe_events (x : List float32) (p : Event → Bool)
    (hp : ∀ e, e.isAccess = true → p e = false) :
    (transcribe_events x).filter p = [] := by
  rw [List.filter_eq_nil_iff]
  intro e he
  simp [hp e (mem_transcribe_events x e he)]

theorem countP_transcribe_events (x : List float32) (p : Event → Bool)
    (hp : ∀ e, e.isAccess = true → p e = false) :
    (transcribe_events x).countP p = 0 := by
  rw [List.countP_eq_length_filter, filter_transcribe_events x p hp]
  rfl

theorem storeIndex_iter (x : List float32) :
    ∀ (k i : Nat), ((List.range' i k).flatMap (iter_events x)).filterMap Event.storeIndex
      = List.range' i k := by
  intro k
  induction k with
  | zero => intro i; rfl
  | succ k ih =>
    intro i
    rw [List.range'_succ, List.flatMap_cons, List.filterMap_append, ih (i + 1)]
    rfl

theorem loadIndex_iter (x : List float32) :
    ∀ (k i : Nat), ((List.range' i k).flatMap (iter_events x)).filterMap Event.loadIndex
      = List.range' (2 * i) (2 * k) := by
  intro k
  induction k with
  | zero => intro i; rfl
  | succ k ih =>
    intro i
    rw [List.range'_succ, List.flatMap_cons, List.filterMap_append, ih (i + 1),
      show 2 * (k + 1) = (2 * k + 1) + 1 from by ring, List.range'_succ, List.range'_succ,
      show 2 * (i + 1) = 2 * i + 1 + 1 from by ring]
    rfl

theorem filter_launch_substep_launches (handle : KernelHandle) :
    (substep_launches handle).filter Event.isLaunch = substep_launches handle := by
  rw [List.filter_eq_self]
  intro e he
  rw [(mem_substep_launches handle e).mp he]
  rfl

theorem countP_substep_launches (p : Event → Bool) (handle : KernelHandle)
    (hp : p (.launch_kernel handle) = false) : (substep_launches handle).countP p = 0 := by
  rw [List.countP_eq_zero]
  intro e he
  rw [(mem_substep_launches handle e).mp he, hp]
  simp

/-- The launches among the events of a `render` that returns. -/
theorem filter_launch_render (T : Target) (r : RenderIn) (g : Globals) (x : List float32) :
    (render_head T r g ++ transcribe_events x ++ render_tail g).filter Event.isLaunch
      = List.replicate 50 (.launch_kernel g.substep_kernel_handle) := by
  rw [List.filter_append, List.filter_append,
    filter_transcribe_events x _ (by intro e h; cases e <;> simp_all)]
  simp only [render_head, render_tail, List.filter_append, filter_launch_substep_launches]
  rfl

/-- Counting, among the events of a `render` that returns, with a predicate that rejects
launches and loop accesses: only the fixed events around the loops can count. -/
theorem countP_render (T : Target) (r : RenderIn) (g : Globals) (x : List float32)
    (p : Event → Bool) (hl : p (.launch_kernel g.substep_kernel_handle) = false)
    (ha : ∀ e, e.isAccess = true → p e = false) :
    (render_head T r g ++ transcribe_events x ++ render_tail g).countP p
      = ([Event.set_background_color (0.6, 0.6, 0.6), .steady_clock_now, .synchronize,
          .steady_clock_now,
          .ALOGI FUNCTION_render ("Execution time is %" ++ T.PRId64 ++ "ns\n") [r.cpu_time],
          .read_memory 0 (read_size T), .map g.dalloc_circles]
          ++ render_tail g).countP p := by
  simp only [render_head, List.countP_append, countP_transcribe_events x p ha,
    countP_substep_launches p _ hl, List.countP_cons, List.countP_nil]
  omega

/-- The events of a `render` that starts with live pointers, returned or not. -/
theorem render_events_prefix (T : Target) (r : RenderIn) (w : World)
    (hr : w.g.renderer.isSome) (hv : w.g.vulkan_runtime.isSome) :
    ∃ rest, render_events T r w = render_head T r w.g ++ rest
      ∧ ∀ e ∈ rest, e.isAccess = true ∨ e ∈ render_tail w.g := by
  obtain ⟨rest, ht, hrest, _⟩ := render_prefix T r w hr hv
  refine ⟨rest, ?_, hrest⟩
  rw [render_events, eventsFrom, ht]
  exact List.drop_left _ _

theorem host_x_getD (T : Target) (r : RenderIn) (h : 32 ≤ T.size_t_bits) (j : Nat)
    (hj : j < 2 * NR_PARTICLES) : (host_x T r)[j]?.getD float32.zero = r.result j := by
  rw [host_x_getElem? T r h j hj]
  rfl

/-- The slots written by a `render` that returns, in order: 0, 1, ..., NR_PARTICLES - 1. -/
theorem storeIndex_render (T : Target) (r : RenderIn) (g : Globals) (x : List float32) :
    (render_head T r g ++ transcribe_events x ++ render_tail g).filterMap Event.storeIndex
      = List.range NR_PARTICLES := by
  have h1 : (render_head T r g).filterMap Event.storeIndex = [] := by
    rw [List.filterMap_eq_nil_iff]
    intro e he
    simp only [render_head, List.mem_append, List.mem_cons, List.mem_singleton,
      List.not_mem_nil, or_false, mem_substep_launches] at he
    rcases he with ((h | h) | h) | (h | h | h | h | h) <;> subst h <;> rfl
  rw [List.filterMap_append, List.filterMap_append, h1, transcribe_events,
    storeIndex_iter x NR_PARTICLES 0, List.range_eq_range']
  simp [render_tail]

/-- The elements of `x` read by a `render` that returns, in order: 0, 1, ...,
2 * NR_PARTICLES - 1. -/
theorem loadIndex_render (T : Target) (r : RenderIn) (g : Globals) (x : List float32) :
    (render_head T r g ++ transcribe_events x ++ render_tail g).filterMap Event.loadIndex
      = List.range (2 * NR_PARTICLES) := by
  have h1 : (render_head T r g).filterMap Event.loadIndex = [] := by
    rw [List.filterMap_eq_nil_iff]
    intro e he
    simp only [render_head, List.mem_append, List.mem_cons, List.mem_singleton,
      List.not_mem_nil, or_false, mem_substep_launches] at he
    rcases he with ((h | h) | h) | (h | h | h | h | h) <;> subst h <;> rfl
  rw [List.filterMap_append, List.filterMap_append, h1, transcribe_events,
    loadIndex_iter x NR_PARTICLES 0, List.range_eq_range']
  simp [render_tail]

/-- A store among the events of a `render` that returns carries the two floats of its
iteration and the constant third component. -/
theorem store_value_render (T : Target) (r : RenderIn) (g : Globals) (x : List float32)
    (i : Nat) (p : float32 × float32 × float32)
    (h : Event.vertex_store i p
      ∈ render_head T r g ++ transcribe_events x ++ render_tail g) :
    i < NR_PARTICLES
      ∧ p = (x[2 * i]?.getD float32.zero, x[2 * i + 1]?.getD float32.zero, float32.zero) := by
  simp only [render_head, render_tail, List.mem_append, List.mem_cons, List.mem_singleton,
    List.not_mem_nil, or_false, mem_substep_launches, reduceCtorEq, false_or, or_self,
    or_false] at h
  obtain ⟨k, hk, hmem⟩ := List.mem_flatMap.mp h
  simp only [iter_events, List.mem_cons, List.mem_singleton, List.not_mem_nil, or_false,
    reduceCtorEq, false_or, Event.vertex_store.injEq] at hmem
  obtain ⟨hik, hp⟩ := hmem
  subst hik
  have := (List.mem_range'_1.mp hk).2
  exact ⟨by omega, hp⟩

/-- A fault of the transcription loop is an access out of bounds, and a loop that ends
leaves the mapping flag alone. -/
theorem transcribe_loop_outcome (x : List float32) :
    ∀ (k i j : Nat) (w : World), NR_PARTICLES - i = k →
      match transcribe_loop x i j w with
      | .ok w2 => w2.mapped = w.mapped
      | .error c => c.fault = .out_of_bounds := by
  intro k
  induction k with
  | zero =>
    intro i j w h
    rw [transcribe_loop, if_neg (by omega)]
  | succ k ih =>
    intro i j w h
    rw [transcribe_loop, if_pos (by omega)]
    cases h1 : x[j]? with
    | none => rfl
    | some a =>
      cases h2 : x[j + 1]? with
      | none => rfl
      | some b =>
        cases h3 : (w.memory)[i]? with
        | none => simp [vertex_store, World.emit, h3]
        | some v =>
          simp only [vertex_store, World.emit, h3]
          exact ih (i + 1) (j + 2) _ (by omega)

theorem transcribe_loop_fault (x : List float32) (i j : Nat) (w : World) (c : Crash)
    (h : transcribe_loop x i j w = .error c) : c.fault = .out_of_bounds := by
  have := transcribe_loop_outcome x _ i j w rfl
  rw [h] at this
  exact this

/-- Started on an unmapped allocation, `render` either returns with the allocation
unmapped or faults, and the fault is never a second `map`. -/
theorem render_outcome (T : Target) (r : RenderIn) (w : World) (hm : w.mapped = false) :
    match Java_com_innopeaktech_naboo_taichi_1test_NativeLib_render T r w with
    | .ok w1 => w1.mapped = false
    | .error c => c.fault ≠ .double_map := by
  unfold Java_com_innopeaktech_naboo_taichi_1test_NativeLib_render
  cases hr : w.g.renderer with
  | none => simp
  | some rd =>
    cases hv : w.g.vulkan_runtime with
    | none => simp [World.emit, hv]
    | some vk =>
      simp only [World.emit, substep_loop_all, hv]
      rw [show T.size_t (NR_PARTICLES * 2 * sizeof_float32) = read_size T from rfl,
        read_memory_host]
      simp only [device_map, World.emit, hm, Bool.false_eq_true, if_false]
      split
      · rename_i c heq
        split at heq
        · cases heq
        · cases heq
          rfl
      · rename_i c heq
        split at heq
        · rename_i c2 heq2
          cases heq
          rw [transcribe_loop_fault _ _ _ _ _ heq2]
          decide
        · cases heq

/-- Selecting, among the events of a `render` that returns, with a predicate that rejects
launches and loop accesses. -/
theorem filter_render (T : Target) (r : RenderIn) (g : Globals) (x : List float32)
    (p : Event → Bool) (hl : p (.launch_kernel g.substep_kernel_handle) = false)
    (ha : ∀ e, e.isAccess = true → p e = false) :
    (render_head T r g ++ transcribe_events x ++ render_tail g).filter p
      = ([Event.set_background_color (0.6, 0.6, 0.6), .steady_clock_now, .synchronize,
          .steady_clock_now,
          .ALOGI FUNCTION_render ("Execution time is %" ++ T.PRId64 ++ "ns\n") [r.cpu_time],
          .read_memory 0 (read_size T), .map g.dalloc_circles]
          ++ render_tail g).filter p := by
  have hs : (substep_launches g.substep_kernel_handle).filter p = [] := by
    rw [List.filter_eq_nil_iff]
    intro e he
    rw [(mem_substep_launches _ e).mp he, hl]
    simp
  simp only [render_head, List.filter_append, filter_transcribe_events x p ha, hs,
    List.append_nil, List.nil_append]
  simp only [List.filter_cons, List.filter_nil]
  split <;> split <;> simp

/-- The concrete world after a complete `init` meets what `render` needs. -/
theorem world_ready_facts :
    world_ready.g.renderer.isSome ∧ world_ready.g.vulkan_runtime.isSome
      ∧ world_ready.mapped = false ∧ NR_PARTICLES ≤ world_ready.memory.length := by
  obtain ⟨hr, hv⟩ := init_pointers T0 (init_in module_full) (World.initial T0)
  obtain ⟨hm, hc, _⟩ :=
    init_ready T0 (init_in module_full) (World.initial T0) (by decide) (by decide)
  exact ⟨hr, hv, hm, le_of_eq hc.symm⟩

/-- An `init` on an unmapped allocation leaves the allocation it holds unmapped. -/
theorem init_unmapped (T : Target) (i : InitIn) (w : World) (hm : w.mapped = false) :
    (Java_com_innopeaktech_naboo_taichi_1test_NativeLib_init T i w).mapped = false := by
  cases h1 : i.aot.get_kernel "init" with
  | none => rw [init_no_init T i w h1]; exact hm
  | some p1 =>
    cases h2 : i.aot.get_kernel "substep" with
    | none => rw [init_no_substep T i w p1 h1 h2]; exact hm
    | some p2 => rw [init_complete T i w p1 p2 h1 h2]

theorem mem_render_head (T : Target) (r : RenderIn) (g : Globals) (e : Event)
    (h : e ∈ render_head T r g) :
    e = .map g.dalloc_circles
      ∨ (e.isMap = false ∧ e.isUnmap = false ∧ e.isStore = false ∧ e.isAccess = false
          ∧ e.isFrameCall = false) := by
  simp only [render_head, List.mem_append, List.mem_cons, List.mem_singleton,
    List.not_mem_nil, or_false, mem_substep_launches] at h
  rcases h with ((h | h) | h) | (h | h | h | h | h)
  all_goals first
    | exact Or.inl h
    | (subst h; exact Or.inr ⟨rfl, rfl, rfl, rfl, rfl⟩)

theorem finalWorld_run_cons (T : Target) (c : Call) (cs : List Call) (w : World) :
    finalWorld (run T (c :: cs) w)
      = match step T c w with
        | .ok w2 => finalWorld (run T cs w2)
        | .error cr => cr.world := by
  simp only [run]
  cases step T c w <;> rfl

theorem finalWorld_run_single (T : Target) (c : Call) (w : World) :
    finalWorld (run T [c] w) = finalWorld (step T c w) := by
  rw [finalWorld_run_cons]
  cases step T c w <;> rfl

/-- On a sane platform an `init` that finds both kernels sets the world up, and any other
`init` keeps a world that was set up. -/
theorem init_good (T : Target) (i : InitIn) (w : World) (hT : T.ok) :
    (i.complete = true →
        Good (Java_com_innopeaktech_naboo_taichi_1test_NativeLib_init T i w))
      ∧ (Good w → Good (Java_com_innopeaktech_naboo_taichi_1test_NativeLib_init T i w)) := by
  obtain ⟨hr, hv⟩ := init_pointers T i w
  have hcomplete : i.complete = true →
      Good (Java_com_innopeaktech_naboo_taichi_1test_NativeLib_init T i w) := by
    intro hi
    obtain ⟨hm, hc, _⟩ := init_ready T i w hT hi
    exact ⟨hr, hv, hm, hc⟩
  refine ⟨hcomplete, fun hg => ?_⟩
  cases hi : i.complete with
  | true => exact hcomplete hi
  | false =>
    refine ⟨hr, hv, ?_, ?_⟩
    · exact init_unmapped T i w hg.2.2.1
    · cases h1 : i.aot.get_kernel "init" with
      | none => rw [init_no_init T i w h1]; exact hg.2.2.2
      | some p1 =>
        cases h2 : i.aot.get_kernel "substep" with
        | none => rw [init_no_substep T i w p1 h1 h2]; exact hg.2.2.2
        | some p2 =>
          have : i.complete = true := (complete_iff i).mpr ⟨p1, p2, h1, h2⟩
          rw [hi] at this
          cases this

/-- A `render` in a world that is set up returns a world that is set up. -/
theorem render_good (T : Target) (r : RenderIn) (w : World) (hg : Good w) :
    ∃ w2, Java_com_innopeaktech_naboo_taichi_1test_NativeLib_render T r w = .ok w2
      ∧ Good w2 := by
  obtain ⟨hr, hv, hm, hc⟩ := hg
  refine ⟨_, render_ok T r w hr hv hm (le_of_eq hc.symm), hr, hv, rfl, ?_⟩
  show (stores (host_x T r) 0 NR_PARTICLES w.memory).length = NR_PARTICLES
  rw [stores_length, hc]

/-- From a world that is set up, on a sane platform, every sequence of calls returns, in
a world that is set up. -/
theorem run_good (T : Target) (hT : T.ok) :
    ∀ (calls : List Call) (w : World), Good w →
      ∃ w2, run T calls w = .ok w2 ∧ Good w2 := by
  intro calls
  induction calls with
  | nil => intro w hg; exact ⟨w, rfl, hg⟩
  | cons c cs ih =>
    intro w hg
    cases c with
    | init i => exact ih _ ((init_good T i w hT).2 hg)
    | destroy => exact ih _ hg
    | pause => exact ih _ hg
    | resume => exact ih _ hg
    | resize width height => exact ih _ hg
    | render r =>
      obtain ⟨w1, h1, hg1⟩ := render_good T r w hg
      obtain ⟨w2, h2, hg2⟩ := ih w1 hg1
      refine ⟨w2, ?_, hg2⟩
      simp only [run, step, h1]
      exact h2

/-- Every allocation request of every `init` on a sane platform is for exactly
`NR_PARTICLES` vertices. -/
theorem init_allocate_capacity (T : Target) (hT : T.ok) (i : InitIn) (w : World)
    (p : AllocParams) (d : DeviceAllocation)
    (hmem : Event.allocate_memory p d ∈ init_events T i w) :
    p.size / T.sizeof_Vertex = NR_PARTICLES := by
  cases h1 : i.aot.get_kernel "init" with
  | none =>
    rw [init_events_no_init T i w h1] at hmem
    simp [init_head, init_tail_no_init] at hmem
  | some p1 =>
    cases h2 : i.aot.get_kernel "substep" with
    | none =>
      rw [init_events_no_substep T i w p1 h1 h2] at hmem
      simp [init_head, init_tail_no_substep] at hmem
    | some p2 =>
      rw [init_events_complete T i w p1 p2 h1 h2] at hmem
      simp only [init_head, init_tail_complete, List.mem_append, List.mem_cons,
        List.mem_singleton, List.not_mem_nil, or_false, reduceCtorEq, false_or, or_self,
        Event.allocate_memory.injEq] at hmem
      rw [hmem.1]
      exact (init_alloc_capacity T hT).2

theorem launchesRegisteredOnRuntime_nil : LaunchesRegisteredOnRuntime [] := by
  intro pre h post heq
  cases pre <;> cases heq

/-- A handle registered on the current runtime is a handle some registration returned. -/
theorem registeredOnRuntime_mem (pre : List Event) (h : KernelHandle)
    (hr : RegisteredOnRuntime pre h) : ∃ p, Event.register_taichi_kernel p h ∈ pre := by
  obtain ⟨a, p, b, heq, _⟩ := hr
  exact ⟨p, by rw [heq]; simp⟩

/-- The reading by runtime implies the reading by value. -/
theorem launchesRegistered_of_onRuntime (t : List Event)
    (ht : LaunchesRegisteredOnRuntime t) : LaunchesRegistered t :=
  fun pre h post heq => registeredOnRuntime_mem pre h (ht pre h post heq)

/-- Events that create no runtime keep a handle registered on the current runtime. -/
theorem registeredOnRuntime_append (pre ev : List Event) (h : KernelHandle)
    (hr : RegisteredOnRuntime pre h) (hev : Event.VkRuntime_new ∉ ev) :
    RegisteredOnRuntime (pre ++ ev) h := by
  obtain ⟨a, p, b, heq, hb⟩ := hr
  refine ⟨a, p, b ++ ev, by rw [heq]; simp, ?_⟩
  intro hmem
  rcases List.mem_append.mp hmem with h1 | h1
  · exact hb h1
  · exact hev h1

/-- Appending events whose launches all go to the current runtime with a handle it
returned. -/
theorem launchesRegisteredOnRuntime_append (t ev : List Event)
    (ht : LaunchesRegisteredOnRuntime t)
    (hev : ∀ a h b, ev = a ++ Event.launch_kernel h :: b → RegisteredOnRuntime (t ++ a) h) :
    LaunchesRegisteredOnRuntime (t ++ ev) := by
  intro pre h post heq
  rcases List.append_eq_append_iff.mp heq with ⟨a, hpre, hevq⟩ | ⟨c, ht2, hc⟩
  · rw [hpre]
    exact hev a h post hevq
  · cases c with
    | nil =>
      simp only [List.nil_append] at hc
      simp only [List.append_nil] at ht2
      have := hev [] h post hc.symm
      rw [List.append_nil, ht2] at this
      exact this
    | cons x c =>
      simp only [List.cons_append, List.cons.injEq] at hc
      rw [← hc.1] at ht2
      exact ht pre h c ht2

/-- Appending events without any launch. -/
theorem launchesRegisteredOnRuntime_append_quiet (t ev : List Event)
    (ht : LaunchesRegisteredOnRuntime t) (hev : ∀ h, Event.launch_kernel h ∉ ev) :
    LaunchesRegisteredOnRuntime (t ++ ev) := by
  refine launchesRegisteredOnRuntime_append t ev ht ?_
  intro a h b heq
  exact absurd (by rw [heq]; simp) (hev h)

/-- Appending events that create no runtime and launch only one handle, registered on the
current runtime. -/
theorem launchesRegisteredOnRuntime_append_of (t ev : List Event) (hs : KernelHandle)
    (ht : LaunchesRegisteredOnRuntime t) (hreg : RegisteredOnRuntime t hs)
    (hnew : Event.VkRuntime_new ∉ ev) (hl : ∀ h, Event.launch_kernel h ∈ ev → h = hs) :
    LaunchesRegisteredOnRuntime (t ++ ev) := by
  refine launchesRegisteredOnRuntime_append t ev ht ?_
  intro a h b heq
  have hh : h = hs := hl h (by rw [heq]; simp)
  rw [hh]
  refine registeredOnRuntime_append t a hs hreg ?_
  intro hmem
  exact hnew (by rw [heq]; exact List.mem_append_left _ hmem)

/-- A trace that fails the property keeps failing it when it grows. -/
theorem launchesRegisteredOnRuntime_of_append (t ev : List Event)
    (h : LaunchesRegisteredOnRuntime (t ++ ev)) : LaunchesRegisteredOnRuntime t := by
  intro pre hd post heq
  exact h pre hd (post ++ ev) (by rw [heq]; simp)

/-- With nothing registered since the last runtime was created, no handle counts as
registered on the current runtime, also after events without registration. -/
theorem not_registeredOnRuntime (t ev : List Event) (h : KernelHandle)
    (ht : NoRegistrationOnRuntime t) (hev : ∀ e ∈ ev, e.isRegister = false) :
    ¬ RegisteredOnRuntime (t ++ ev) h := by
  rintro ⟨a2, p, b2, heq, hb2⟩
  obtain ⟨a, b, hteq, hb⟩ := ht
  have hc : ∀ e ∈ b ++ ev, e.isRegister = false := by
    intro e he
    rcases List.mem_append.mp he with h1 | h1
    · exact hb e h1
    · exact hev e h1
  have heq2 : a ++ Event.VkRuntime_new :: (b ++ ev)
      = a2 ++ Event.register_taichi_kernel p h :: b2 := by
    rw [← heq, hteq]; simp
  rcases List.append_eq_append_iff.mp heq2 with ⟨d, _, hd⟩ | ⟨d, _, hd⟩
  · cases d with
    | nil => simp at hd
    | cons x d =>
      simp only [List.cons_append, List.cons.injEq] at hd
      have := hc (Event.register_taichi_kernel p h) (by rw [hd.2]; simp)
      simp at this
  · cases d with
    | nil => simp at hd
    | cons x d =>
      simp only [List.cons_append, List.cons.injEq] at hd
      exact hb2 (by rw [hd.2]; simp)

theorem vkRuntime_new_not_mem_render (T : Target) (r : RenderIn) (g : Globals)
    (rest : List Event) (hrest : ∀ e ∈ rest, e.isAccess = true ∨ e ∈ render_tail g) :
    Event.VkRuntime_new ∉ render_head T r g ++ rest := by
  intro hmem
  rcases List.mem_append.mp hmem with h | h
  · simp [render_head, mem_substep_launches] at h
  · rcases hrest _ h with h2 | h2
    · cases h2
    · simp [render_tail] at h2

theorem launch_mem_render (T : Target) (r : RenderIn) (g : Globals)
    (rest : List Event) (hrest : ∀ e ∈ rest, e.isAccess = true ∨ e ∈ render_tail g)
    (h : KernelHandle) (hmem : Event.launch_kernel h ∈ render_head T r g ++ rest) :
    h = g.substep_kernel_handle := by
  rcases List.mem_append.mp hmem with hm | hm
  · simp only [render_head, List.mem_append, List.mem_cons, List.mem_singleton,
      List.not_mem_nil, or_false, mem_substep_launches, reduceCtorEq, false_or,
      or_false, Event.launch_kernel.injEq] at hm
    exact hm
  · rcases hrest _ hm with hm2 | hm2
    · cases hm2
    · simp [render_tail] at hm2

theorem phaseInv_trace (ph : Phase) (w : World) (h : PhaseInv ph w) :
    LaunchesRegisteredOnRuntime w.trace := by
  cases ph with
  | fresh => exact h.2
  | complete => exact h.1
  | failed => exact h

/-- An `init` moves to the phase its module decides and keeps the invariant of that
phase. -/
theorem init_phaseInv (T : Target) (i : InitIn) (w : World)
    (hw : LaunchesRegisteredOnRuntime w.trace) :
    PhaseInv (if i.complete then .complete else .failed)
      (Java_com_innopeaktech_naboo_taichi_1test_NativeLib_init T i w) := by
  cases h1 : i.aot.get_kernel "init" with
  | none =>
    have hc : i.complete = false := by simp [InitIn.complete, h1]
    rw [init_no_init T i w h1, hc]
    exact launchesRegisteredOnRuntime_append_quiet _ _ hw
      (by simp [init_head, init_tail_no_init])
  | some p1 =>
    cases h2 : i.aot.get_kernel "substep" with
    | none =>
      have hc : i.complete = false := by simp [InitIn.complete, h1, h2]
      rw [init_no_substep T i w p1 h1 h2, hc]
      exact launchesRegisteredOnRuntime_append_quiet _ _ hw
        (by simp [init_head, init_tail_no_substep])
    | some p2 =>
      have hc : i.complete = true := by simp [InitIn.complete, h1, h2]
      have hsplit : w.trace ++ (init_head T i ++ init_tail_complete T i p1 p2)
          = (w.trace ++ (init_head T i ++
              [.get_kernel "init" true, .get_kernel "substep" true,
               .get_root_size i.aot.root_size,
               .ALOGI FUNCTION_init "root buffer size=%d\n" [(i.aot.root_size : Int)],
               .add_root_buffer i.aot.root_size,
               .register_taichi_kernel p1 i.first_handle,
               .register_taichi_kernel p2 i.second_handle,
               .allocate_memory (init_alloc_params T) i.new_alloc]))
            ++ [.launch_kernel i.first_handle] := by
        simp [init_tail_complete]
      have hreg1 : RegisteredOnRuntime
          (w.trace ++ (init_head T i ++
              [.get_kernel "init" true, .get_kernel "substep" true,
               .get_root_size i.aot.root_size,
               .ALOGI FUNCTION_init "root buffer size=%d\n" [(i.aot.root_size : Int)],
               .add_root_buffer i.aot.root_size,
               .register_taichi_kernel p1 i.first_handle,
               .register_taichi_kernel p2 i.second_handle,
               .allocate_memory (init_alloc_params T) i.new_alloc])) i.first_handle :=
        ⟨w.trace ++ (init_head T i ++
              [.get_kernel "init" true, .get_kernel "substep" true,
               .get_root_size i.aot.root_size,
               .ALOGI FUNCTION_init "root buffer size=%d\n" [(i.aot.root_size : Int)],
               .add_root_buffer i.aot.root_size]), p1,
          [.register_taichi_kernel p2 i.second_handle,
           .allocate_memory (init_alloc_params T) i.new_alloc], by simp, by simp⟩
      have hlr : LaunchesRegisteredOnRuntime
          (w.trace ++ (init_head T i ++ init_tail_complete T i p1 p2)) := by
        rw [hsplit]
        exact launchesRegisteredOnRuntime_append_of _ _ i.first_handle
          (launchesRegisteredOnRuntime_append_quiet _ _ hw (by simp [init_head]))
          hreg1 (by simp) (by simp)
      rw [init_complete T i w p1 p2 h1 h2, hc]
      refine ⟨hlr, ?_⟩
      exact ⟨w.trace ++ (init_head T i ++
              [.get_kernel "init" true, .get_kernel "substep" true,
               .get_root_size i.aot.root_size,
               .ALOGI FUNCTION_init "root buffer size=%d\n" [(i.aot.root_size : Int)],
               .add_root_buffer i.aot.root_size,
               .register_taichi_kernel p1 i.first_handle]), p2,
          [.allocate_memory (init_alloc_params T) i.new_alloc,
           .launch_kernel i.first_handle], by simp [init_tail_complete], by simp⟩

/-- A `render` in a ready world keeps the invariant, whether it returns or faults. -/
theorem render_ready (T : Target) (r : RenderIn) (w : World) (hw : Ready w) :
    match Java_com_innopeaktech_naboo_taichi_1test_NativeLib_render T r w with
    | .ok w2 => Ready w2
    | .error cr => LaunchesRegisteredOnRuntime cr.world.trace := by
  cases hr : w.g.renderer with
  | none =>
    rw [render_null_renderer T r w hr]
    exact hw.1
  | some rd =>
    have hr2 : w.g.renderer.isSome := by simp [hr]
    cases hv : w.g.vulkan_runtime with
    | none =>
      rw [render_null_runtime T r w hr2 hv]
      exact launchesRegisteredOnRuntime_append_quiet _ _ hw.1 (by simp)
    | some vk =>
      have hv2 : w.g.vulkan_runtime.isSome := by simp [hv]
      obtain ⟨rest, ht, hrest, hg⟩ := render_prefix T r w hr2 hv2
      have hnew := vkRuntime_new_not_mem_render T r w.g rest hrest
      have hlr : LaunchesRegisteredOnRuntime (w.trace ++ (render_head T r w.g ++ rest)) :=
        launchesRegisteredOnRuntime_append_of _ _ w.g.substep_kernel_handle hw.1 hw.2 hnew
          (fun h hmem => launch_mem_render T r w.g rest hrest h hmem)
      cases hres : Java_com_innopeaktech_naboo_taichi_1test_NativeLib_render T r w with
      | error cr =>
        rw [hres] at ht
        simp only [finalWorld] at ht
        show LaunchesRegisteredOnRuntime cr.world.trace
        rw [ht]
        exact hlr
      | ok w2 =>
        rw [hres] at ht hg
        simp only [finalWorld] at ht hg
        show Ready w2
        refine ⟨by rw [ht]; exact hlr, ?_⟩
        rw [ht, hg]
        exact registeredOnRuntime_append _ _ _ hw.2 hnew

/-- In every phase, a guarded rest of the sequence keeps every launch registered on its
runtime. -/
theorem run_phaseInv (T : Target) :
    ∀ (calls : List Call) (ph : Phase) (w : World), PhaseInv ph w →
      guardedFrom ph calls = true →
      LaunchesRegisteredOnRuntime (finalWorld (run T calls w)).trace := by
  intro calls
  induction calls with
  | nil => intro ph w hw _; exact phaseInv_trace ph w hw
  | cons c cs ih =>
    intro ph w hw hg
    rw [finalWorld_run_cons]
    cases c with
    | init i =>
      simp only [step]
      refine ih _ _ (init_phaseInv T i w (phaseInv_trace ph w hw)) ?_
      cases ph <;> simpa [guardedFrom] using hg
    | destroy => exact ih ph w hw (by cases ph <;> simpa [guardedFrom] using hg)
    | pause => exact ih ph w hw (by cases ph <;> simpa [guardedFrom] using hg)
    | resume => exact ih ph w hw (by cases ph <;> simpa [guardedFrom] using hg)
    | resize width height =>
      refine ih ph _ ?_ (by cases ph <;> simpa [guardedFrom] using hg)
      cases ph with
      | fresh => exact ⟨hw.1, launchesRegisteredOnRuntime_append_quiet _ _ hw.2 (by simp)⟩
      | complete =>
        exact ⟨launchesRegisteredOnRuntime_append_quiet _ _ hw.1 (by simp),
          registeredOnRuntime_append _ _ _ hw.2 (by simp)⟩
      | failed => exact launchesRegisteredOnRuntime_append_quiet _ _ hw (by simp)
    | render r =>
      simp only [step]
      cases ph with
      | fresh =>
        rw [render_null_renderer T r w hw.1]
        exact hw.2
      | complete =>
        have := render_ready T r w hw
        cases hres : Java_com_innopeaktech_naboo_taichi_1test_NativeLib_render T r w with
        | error cr => rw [hres] at this; exact this
        | ok w2 =>
          rw [hres] at this
          exact ih .complete w2 this (by simpa [guardedFrom] using hg)
      | failed => simp [guardedFrom] at hg

/-- On a sane platform an `init` leaves the world as its phase requires. -/
theorem init_phaseOk (T : Target) (hT : T.ok) (i : InitIn) (w : World) :
    PhaseOk (if i.complete then .complete else .failed)
      (Java_com_innopeaktech_naboo_taichi_1test_NativeLib_init T i w) := by
  obtain ⟨hr, hv⟩ := init_pointers T i w
  cases hc : i.complete with
  | true => exact (init_good T i w hT).1 hc
  | false =>
    refine ⟨hr, hv, ?_⟩
    cases h1 : i.aot.get_kernel "init" with
    | none =>
      rw [init_no_init T i w h1]
      exact ⟨w.trace ++ (init_head T i).dropLast, init_tail_no_init,
        by simp [init_head], by simp [init_tail_no_init]⟩
    | some p1 =>
      cases h2 : i.aot.get_kernel "substep" with
      | none =>
        rw [init_no_substep T i w p1 h1 h2]
        exact ⟨w.trace ++ (init_head T i).dropLast, init_tail_no_substep,
          by simp [init_head], by simp [init_tail_no_substep]⟩
      | some p2 =>
        have : i.complete = true := (complete_iff i).mpr ⟨p1, p2, h1, h2⟩
        rw [hc] at this
        cases this

/-- Every call only adds events to the trace. -/
theorem step_trace_extends (T : Target) (c : Call) (w : World) :
    ∃ ev, (finalWorld (step T c w)).trace = w.trace ++ ev := by
  cases c with
  | init i =>
    simp only [step, finalWorld]
    cases h1 : i.aot.get_kernel "init" with
    | none => exact ⟨_, by rw [init_no_init T i w h1]⟩
    | some p1 =>
      cases h2 : i.aot.get_kernel "substep" with
      | none => exact ⟨_, by rw [init_no_substep T i w p1 h1 h2]⟩
      | some p2 => exact ⟨_, by rw [init_complete T i w p1 p2 h1 h2]⟩
  | destroy => exact ⟨[], by simp [step, finalWorld,
      Java_com_innopeaktech_naboo_taichi_1test_NativeLib_destroy]⟩
  | pause => exact ⟨[], by simp [step, finalWorld,
      Java_com_innopeaktech_naboo_taichi_1test_NativeLib_pause]⟩
  | resume => exact ⟨[], by simp [step, finalWorld,
      Java_com_innopeaktech_naboo_taichi_1test_NativeLib_resume]⟩
  | resize width height => exact ⟨_, rfl⟩
  | render r =>
    simp only [step]
    cases hr : w.g.renderer with
    | none => exact ⟨[], by rw [render_null_renderer T r w hr]; simp [finalWorld]⟩
    | some rd =>
      have hr2 : w.g.renderer.isSome := by simp [hr]
      cases hv : w.g.vulkan_runtime with
      | none => exact ⟨_, by rw [render_null_runtime T r w hr2 hv]; rfl⟩
      | some vk =>
        obtain ⟨rest, ht, _, _⟩ := render_prefix T r w hr2 (by simp [hv])
        exact ⟨_, ht⟩

/-- Every sequence of calls only adds events to the trace. -/
theorem run_trace_extends (T : Target) :
    ∀ (calls : List Call) (w : World),
      ∃ ev, (finalWorld (run T calls w)).trace = w.trace ++ ev := by
  intro calls
  induction calls with
  | nil => intro w; exact ⟨[], by simp [run, finalWorld]⟩
  | cons c cs ih =>
    intro w
    obtain ⟨ev1, h1⟩ := step_trace_extends T c w
    rw [finalWorld_run_cons]
    cases hs : step T c w with
    | error cr =>
      rw [hs] at h1
      exact ⟨ev1, h1⟩
    | ok w2 =>
      rw [hs] at h1
      simp only [finalWorld] at h1
      obtain ⟨ev2, h2⟩ := ih w2
      exact ⟨ev1 ++ ev2, by simp only; rw [h2, h1, List.append_assoc]⟩

/-- A `render` with live pointers on a runtime on which nothing was registered launches
a handle that is not registered on that runtime. -/
theorem render_unregistered (T : Target) (r : RenderIn) (w : World)
    (hr : w.g.renderer.isSome) (hv : w.g.vulkan_runtime.isSome)
    (hn : NoRegistrationOnRuntime w.trace) :
    ¬ LaunchesRegisteredOnRuntime
        (finalWorld (Java_com_innopeaktech_naboo_taichi_1test_NativeLib_render T r w)).trace := by
  obtain ⟨rest, ht, _, _⟩ := render_prefix T r w hr hv
  intro hall
  have heq : (finalWorld
        (Java_com_innopeaktech_naboo_taichi_1test_NativeLib_render T r w)).trace
      = (w.trace ++ [.set_background_color (0.6, 0.6, 0.6), .steady_clock_now])
        ++ Event.launch_kernel w.g.substep_kernel_handle
          :: (List.replicate 49 (.launch_kernel w.g.substep_kernel_handle)
              ++ [.synchronize, .steady_clock_now,
                  .ALOGI FUNCTION_render ("Execution time is %" ++ T.PRId64 ++ "ns\n")
                    [r.cpu_time],
                  .read_memory 0 (read_size T), .map w.g.dalloc_circles] ++ rest) := by
    rw [ht]
    simp only [render_head, substep_launches, List.append_assoc, List.cons_append,
      List.nil_append]
    rfl
  exact not_registeredOnRuntime w.trace _ _ hn (by simp) (hall _ _ _ heq)

/-- On a sane platform, in every phase, a rest of the sequence that is not guarded ends
with a launch that is not registered on its runtime. -/
theorem run_phaseOk (T : Target) (hT : T.ok) :
    ∀ (calls : List Call) (ph : Phase) (w : World), PhaseOk ph w →
      guardedFrom ph calls = false →
      ¬ LaunchesRegisteredOnRuntime (finalWorld (run T calls w)).trace := by
  intro calls
  induction calls with
  | nil => intro ph w _ hg; cases ph <;> simp [guardedFrom] at hg
  | cons c cs ih =>
    intro ph w hw hg
    rw [finalWorld_run_cons]
    cases c with
    | init i =>
      simp only [step]
      refine ih _ _ (init_phaseOk T hT i w) ?_
      cases ph <;> simpa [guardedFrom] using hg
    | destroy => exact ih ph w hw (by cases ph <;> simpa [guardedFrom] using hg)
    | pause => exact ih ph w hw (by cases ph <;> simpa [guardedFrom] using hg)
    | resume => exact ih ph w hw (by cases ph <;> simpa [guardedFrom] using hg)
    | resize width height =>
      refine ih ph _ ?_ (by cases ph <;> simpa [guardedFrom] using hg)
      cases ph with
      | fresh => exact hw
      | complete => exact hw
      | failed =>
        obtain ⟨hr, hv, a, b, heq, hb⟩ := hw
        refine ⟨hr, hv, a, b ++ [.ALOGI FUNCTION_resize "Resize requested for %dx%d"
          [width, height]], ?_, ?_⟩
        · show w.trace ++ _ = _
          rw [heq]; simp
        · intro e he
          rcases List.mem_append.mp he with h1 | h1
          · exact hb e h1
          · simp at h1; subst h1; rfl
    | render r =>
      simp only [step]
      cases ph with
      | fresh => simp [guardedFrom] at hg
      | complete =>
        obtain ⟨w2, h2, hg2⟩ := render_good T r w hw
        rw [h2]
        exact ih .complete w2 hg2 (by simpa [guardedFrom] using hg)
      | failed =>
        obtain ⟨hr, hv, hn⟩ := hw
        have hbad := render_unregistered T r w hr hv hn
        cases hres : Java_com_innopeaktech_naboo_taichi_1test_NativeLib_render T r w with
        | error cr =>
          rw [hres] at hbad
          exact hbad
        | ok w2 =>
          rw [hres] at hbad
          simp only [finalWorld] at hbad
          obtain ⟨ev, hev⟩ := run_trace_extends T cs w2
          intro hall
          simp only at hall
          rw [hev] at hall
          exact hbad (launchesRegisteredOnRuntime_of_append _ _ hall)

/-- The transcription loop never touches the mapping flag, whether it ends or faults. -/
theorem transcribe_loop_mapped (x : List float32) :
    ∀ (k i j : Nat) (w : World), NR_PARTICLES - i = k →
      (finalWorld (transcribe_loop x i j w)).mapped = w.mapped := by
  intro k
  induction k with
  | zero =>
    intro i j w h
    rw [transcribe_loop, if_neg (by omega)]
    rfl
  | succ k ih =>
    intro i j w h
    rw [transcribe_loop, if_pos (by omega)]
    cases h1 : x[j]? with
    | none => rfl
    | some a =>
      cases h2 : x[j + 1]? with
      | none => rfl
      | some b =>
        cases h3 : (w.memory)[i]? with
        | none => simp [vertex_store, World.emit, h3, finalWorld]
        | some v =>
          simp only [vertex_store, World.emit, h3]
          exact ih (i + 1) (j + 2) _ (by omega)

theorem transcribe_loop_mapped_of (x : List float32) (i j : Nat) (w : World)
    (res : Except Crash World) (h : transcribe_loop x i j w = res) :
    (finalWorld res).mapped = w.mapped := by
  subst h
  exact transcribe_loop_mapped x _ i j w rfl

/-- The two outcomes of a `render` that starts with live pointers and an unmapped
allocation: it returns, unmapped, after `render_head`, loop accesses and `render_tail`;
or the loop faults out of bounds, after `render_head` and loop accesses, with the
allocation still mapped. -/
theorem render_shape (T : Target) (r : RenderIn) (w : World)
    (hr : w.g.renderer.isSome) (hv : w.g.vulkan_runtime.isSome) (hm : w.mapped = false) :
    ∃ acc, (∀ e ∈ acc, e.isAccess = true)
      ∧ ((∃ w1, Java_com_innopeaktech_naboo_taichi_1test_NativeLib_render T r w = .ok w1
            ∧ w1.mapped = false
            ∧ render_events T r w = render_head T r w.g ++ acc ++ render_tail w.g)
        ∨ (∃ cr, Java_com_innopeaktech_naboo_taichi_1test_NativeLib_render T r w = .error cr
            ∧ cr.fault = .out_of_bounds ∧ cr.world.mapped = true
            ∧ render_events T r w = render_head T r w.g ++ acc)) := by
  obtain ⟨rd, hrd⟩ := Option.isSome_iff_exists.mp hr
  obtain ⟨vk, hvk⟩ := Option.isSome_iff_exists.mp hv
  unfold render_events Java_com_innopeaktech_naboo_taichi_1test_NativeLib_render
  simp only [hrd, hvk, World.emit, substep_loop_all]
  rw [show T.size_t (NR_PARTICLES * 2 * sizeof_float32) = read_size T from rfl,
    read_memory_host]
  simp only [device_map, World.emit, hm, Bool.false_eq_true, if_false]
  split
  · rename_i c heq
    obtain ⟨ev, he, ha, _⟩ := transcribe_loop_frame_of _ _ _ _ _ heq
    have hmp := transcribe_loop_mapped_of _ _ _ _ _ heq
    have hf := transcribe_loop_fault _ _ _ _ _ heq
    simp only [finalWorld] at he hmp
    refine ⟨ev, ha, Or.inr ⟨c, rfl, hf, hmp, ?_⟩⟩
    simp only [eventsFrom, finalWorld]
    rw [he]
    simp [render_head]
  · rename_i w2 heq
    obtain ⟨ev, he, ha, hg⟩ := transcribe_loop_frame_of _ _ _ _ _ heq
    simp only [finalWorld] at he hg
    refine ⟨ev, ha, Or.inl ⟨_, rfl, by simp [device_unmap], ?_⟩⟩
    simp only [eventsFrom, finalWorld]
    simp [device_unmap, World.emit, he, hg, render_head, render_tail]

/-- With no vertex memory behind the allocation the first store of the loop faults. -/
theorem transcribe_loop_no_memory (x : List float32) (w : World) (hx : 2 ≤ x.length)
    (hmem : w.memory = []) :
    ∃ cr, transcribe_loop x 0 0 w = .error cr ∧ cr.fault = .out_of_bounds
      ∧ cr.world.mapped = w.mapped
      ∧ cr.world.trace = w.trace ++ [.host_load 0, .host_load 1] := by
  rw [transcribe_loop, if_pos (by decide)]
  have h0 : 0 < x.length := by omega
  have h1 : 0 + 1 < x.length := by omega
  simp [List.getElem?_eq_getElem h0, List.getElem?_eq_getElem h1, vertex_store, World.emit,
    hmem]

theorem countP_accesses (acc : List Event) (p : Event → Bool)
    (hacc : ∀ e ∈ acc, e.isAccess = true) (hp : ∀ e, e.isAccess = true → p e = false) :
    acc.countP p = 0 := by
  rw [List.countP_eq_zero]
  intro e he
  rw [hp e (hacc e he)]
  exact Bool.false_ne_true

theorem countP_map_render_head (T : Target) (r : RenderIn) (g : Globals) :
    (render_head T r g).countP Event.isMap = 1
      ∧ (render_head T r g).countP Event.isUnmap = 0 := by
  constructor <;>
    simp [render_head, List.countP_append, countP_substep_launches]

theorem transcribe_loop_no_memory_of (x : List float32) (w : World)
    (res : Except Crash World) (h : transcribe_loop x 0 0 w = res) (hx : 2 ≤ x.length)
    (hmem : w.memory = []) :
    ∃ cr, res = .error cr ∧ cr.fault = .out_of_bounds ∧ cr.world.mapped = w.mapped
      ∧ cr.world.trace = w.trace ++ [.host_load 0, .host_load 1] := by
  subst h
  exact transcribe_loop_no_memory x w hx hmem

/-- A `render` that starts with live pointers and an unmapped allocation without vertex
memory maps, faults on its first store and never unmaps. -/
theorem render_no_memory (T : Target) (r : RenderIn) (w : World)
    (hr : w.g.renderer.isSome) (hv : w.g.vulkan_runtime.isSome) (hm : w.mapped = false)
    (hmem : w.memory = []) :
    ∃ cr, Java_com_innopeaktech_naboo_taichi_1test_NativeLib_render T r w = .error cr
      ∧ cr.fault = .out_of_bounds ∧ cr.world.mapped = true
      ∧ render_events T r w = render_head T r w.g ++ [.host_load 0, .host_load 1] := by
  obtain ⟨rd, hrd⟩ := Option.isSome_iff_exists.mp hr
  obtain ⟨vk, hvk⟩ := Option.isSome_iff_exists.mp hv
  have hx : 2 ≤ (host_x T r).length := by
    rw [host_x_length]
    decide
  unfold render_events Java_com_innopeaktech_naboo_taichi_1test_NativeLib_render
  simp only [hrd, hvk, World.emit, substep_loop_all]
  rw [show T.size_t (NR_PARTICLES * 2 * sizeof_float32) = read_size T from rfl,
    read_memory_host]
  simp only [device_map, World.emit, hm, Bool.false_eq_true, if_false]
  split
  · rename_i c heq
    obtain ⟨cr, hcr, hf, hmp, htr⟩ :=
      transcribe_loop_no_memory_of _ _ _ heq hx (by exact hmem)
    cases hcr
    refine ⟨_, rfl, hf, hmp, ?_⟩
    simp only [eventsFrom, finalWorld]
    rw [htr]
    simp [render_head]
  · rename_i w2 heq
    obtain ⟨cr, hcr, _⟩ := transcribe_loop_no_memory_of _ _ _ heq hx (by exact hmem)
    cases hcr

/-- The concrete world after a failed `init`: live pointers, unmapped, no vertex memory. -/
theorem world_failed_facts :
    world_failed.g.renderer.isSome ∧ world_failed.g.vulkan_runtime.isSome
      ∧ world_failed.mapped = false ∧ world_failed.memory = [] := by
  have h1 : (init_in module_no_substep).aot.get_kernel "init" = some ⟨1⟩ := by decide
  have h2 : (init_in module_no_substep).aot.get_kernel "substep" = none := by decide
  obtain ⟨hr, hv⟩ := init_pointers T0 (init_in module_no_substep) (World.initial T0)
  refine ⟨hr, hv, ?_, ?_⟩ <;>
    · unfold world_failed
      rw [init_no_substep T0 (init_in module_no_substep) (World.initial T0) ⟨1⟩ h1 h2]
      rfl

theorem access_not_map (e : Event) (h : e.isAccess = true) : e.isMap = false := by
  cases e <;> first | rfl | cases h

theorem access_not_unmap (e : Event) (h : e.isAccess = true) : e.isUnmap = false := by
  cases e <;> first | rfl | cases h

/-! ## The claims -/

/-- C1: on a sane platform whose runtime returns two different handles, in the state `w`
reached by an `init` that finds both kernels, one call of `render` returns, and among
its events the launches are exactly fifty launches of the substep handle, none of them
uses the init handle, and there is exactly one `synchronize`, one `read_memory`, one
`circles`, one `draw_frame`, one `present_image` and one `prepare_for_next_frame`. -/
theorem render_call_counts (T : Target) (i : InitIn) (r : RenderIn) (w0 w : World)
    (hT : T.ok) (hi : i.complete = true) (hd : i.first_handle ≠ i.second_handle)
    (hw : w = Java_com_innopeaktech_naboo_taichi_1test_NativeLib_init T i w0) :
    (∃ w1, Java_com_innopeaktech_naboo_taichi_1test_NativeLib_render T r w = .ok w1)
      ∧ (render_events T r w).filter Event.isLaunch
          = List.replicate 50 (.launch_kernel w.g.substep_kernel_handle)
      ∧ Event.launch_kernel w.g.init_kernel_handle ∉ render_events T r w
      ∧ (render_events T r w).countP Event.isSynchronize = 1
      ∧ (render_events T r w).countP Event.isRead = 1
      ∧ (render_events T r w).countP Event.isCircles = 1
      ∧ (render_events T r w).countP Event.isDrawFrame = 1
      ∧ (render_events T r w).countP Event.isPresent = 1
      ∧ (render_events T r w).countP Event.isPrepare = 1 := by
  obtain ⟨hr, hv⟩ := init_pointers T i w0
  obtain ⟨hm, hc, h1, h2, _⟩ := init_ready T i w0 hT hi
  rw [← hw] at hr hv hm hc h1 h2
  have hev := render_events_ok T r w hr hv hm (le_of_eq hc.symm)
  have hfl := filter_launch_render T r w.g (host_x T r)
  refine ⟨⟨_, render_ok T r w hr hv hm (le_of_eq hc.symm)⟩, ?_, ?_, ?_, ?_, ?_, ?_, ?_, ?_⟩
  · rw [hev, hfl]
  · intro hmem
    have : Event.launch_kernel w.g.init_kernel_handle
        ∈ (render_events T r w).filter Event.isLaunch := List.mem_filter.mpr ⟨hmem, rfl⟩
    rw [hev, hfl, List.mem_replicate] at this
    have e := this.2
    rw [h1, h2] at e
    exact hd (Event.launch_kernel.inj e)
  all_goals
    rw [hev, countP_render T r w.g (host_x T r) _ rfl (by intro e h; cases e <;> simp_all)]
    simp [render_tail]

theorem render_call_counts_witness :
    (∃ w1, Java_com_innopeaktech_naboo_taichi_1test_NativeLib_render T0 render_in world_ready
        = .ok w1)
      ∧ (render_events T0 render_in world_ready).filter Event.isLaunch
          = List.replicate 50 (.launch_kernel world_ready.g.substep_kernel_handle)
      ∧ Event.launch_kernel world_ready.g.init_kernel_handle
          ∉ render_events T0 render_in world_ready
      ∧ (render_events T0 render_in world_ready).countP Event.isSynchronize = 1
      ∧ (render_events T0 render_in world_ready).countP Event.isRead = 1
      ∧ (render_events T0 render_in world_ready).countP Event.isCircles = 1
      ∧ (render_events T0 render_in world_ready).countP Event.isDrawFrame = 1
      ∧ (render_events T0 render_in world_ready).countP Event.isPresent = 1
      ∧ (render_events T0 render_in world_ready).countP Event.isPrepare = 1 :=
  render_call_counts T0 (init_in module_full) render_in (World.initial T0) world_ready
    (by decide) (by decide) (by decide) rfl

/-- C2: the events of a `render` call that starts with a live renderer and a live runtime
consist of some events without launch, synchronize or read, then the fifty launches of the
substep handle in a row, then the one `synchronize`, then events without launch,
synchronize or read, then the one `read_memory`, then events without launch, synchronize
or read.  So every launch precedes the synchronize, no synchronize separates two launches,
and the read follows a synchronize that follows the last launch. -/
theorem render_launch_sync_read_order (T : Target) (r : RenderIn) (w : World)
    (hr : w.g.renderer.isSome) (hv : w.g.vulkan_runtime.isSome) :
    ∃ pre mid post,
      render_events T r w
          = pre ++ List.replicate 50 (.launch_kernel w.g.substep_kernel_handle)
              ++ [.synchronize] ++ mid ++ [.read_memory 0 (read_size T)] ++ post
      ∧ ∀ e ∈ pre ++ mid ++ post,
          e.isLaunch = false ∧ e.isSynchronize = false ∧ e.isRead = false := by
  obtain ⟨rest, hev, hrest⟩ := render_events_prefix T r w hr hv
  refine ⟨[.set_background_color (0.6, 0.6, 0.6), .steady_clock_now],
    [.steady_clock_now,
     .ALOGI FUNCTION_render ("Execution time is %" ++ T.PRId64 ++ "ns\n") [r.cpu_time]],
    .map w.g.dalloc_circles :: rest, ?_, ?_⟩
  · rw [hev]
    simp only [render_head, substep_launches, List.append_assoc, List.cons_append,
      List.nil_append]
  · intro e he
    simp only [List.mem_append, List.mem_cons, List.mem_singleton, List.not_mem_nil,
      or_false] at he
    rcases he with ((h | h) | (h | h)) | (h | h)
    · subst h; exact ⟨rfl, rfl, rfl⟩
    · subst h; exact ⟨rfl, rfl, rfl⟩
    · subst h; exact ⟨rfl, rfl, rfl⟩
    · subst h; exact ⟨rfl, rfl, rfl⟩
    · subst h; exact ⟨rfl, rfl, rfl⟩
    · rcases hrest e h with h | h
      · cases e <;> simp_all
      · simp only [render_tail, List.mem_cons, List.mem_singleton, List.not_mem_nil,
          or_false] at h
        rcases h with h | h | h | h | h <;> subst h <;> exact ⟨rfl, rfl, rfl⟩

theorem render_launch_sync_read_order_witness :
    ∃ pre mid post,
      render_events T0 render_in world_ready
          = pre ++ List.replicate 50 (.launch_kernel world_ready.g.substep_kernel_handle)
              ++ [.synchronize] ++ mid ++ [.read_memory 0 (read_size T0)] ++ post
      ∧ ∀ e ∈ pre ++ mid ++ post,
          e.isLaunch = false ∧ e.isSynchronize = false ∧ e.isRead = false :=
  render_launch_sync_read_order T0 render_in world_ready (by decide) (by decide)

/-- C3: let `size_t` have at least 32 bits and let `render` start with live pointers, an
unmapped allocation and room for `NR_PARTICLES` vertices.  Then `render` returns, and for
the floats `r.result` delivered by the read: every slot `i < 8192` of the vertex memory
holds its former vertex with the position replaced by
`(result[2i], result[2i+1], 0.0)`; the stores of the call write the slots 0, 1, ..., 8191
in this order, each once and no other; each store carries that position; slots from 8192
on are unchanged. -/
theorem render_transcribes_all_slots (T : Target) (r : RenderIn) (w : World)
    (hbits : 32 ≤ T.size_t_bits)
    (hr : w.g.renderer.isSome) (hv : w.g.vulkan_runtime.isSome) (hm : w.mapped = false)
    (hc : NR_PARTICLES ≤ w.memory.length) :
    ∃ w1, Java_com_innopeaktech_naboo_taichi_1test_NativeLib_render T r w = .ok w1
      ∧ (∀ i, i < 8192 → ∃ v, w.memory[i]? = some v
          ∧ w1.memory[i]?
              = some { v with pos := (r.result (2 * i), r.result (2 * i + 1),
                                      float32.zero) })
      ∧ (render_events T r w).filterMap Event.storeIndex = List.range 8192
      ∧ (∀ i p, Event.vertex_store i p ∈ render_events T r w →
          p = (r.result (2 * i), r.result (2 * i + 1), float32.zero))
      ∧ (∀ i, 8192 ≤ i → w1.memory[i]? = w.memory[i]?) := by
  have hev := render_events_ok T r w hr hv hm hc
  refine ⟨_, render_ok T r w hr hv hm hc, ?_, ?_, ?_, ?_⟩
  · intro i hi
    have hi2 : i < NR_PARTICLES := hi
    have hlt : i < w.memory.length := by omega
    refine ⟨w.memory[i], List.getElem?_eq_getElem hlt, ?_⟩
    show (stores (host_x T r) 0 NR_PARTICLES w.memory)[i]? = _
    rw [stores_getElem? (host_x T r) NR_PARTICLES 0 w.memory i (by omega),
      if_pos (by omega), List.getElem?_eq_getElem hlt,
      host_x_getD T r hbits (2 * i) (by omega), host_x_getD T r hbits (2 * i + 1) (by omega)]
    rfl
  · rw [hev]
    exact storeIndex_render T r w.g (host_x T r)
  · intro i p hmem
    rw [hev] at hmem
    obtain ⟨hi, hp⟩ := store_value_render T r w.g (host_x T r) i p hmem
    rw [hp, host_x_getD T r hbits (2 * i) (by omega),
      host_x_getD T r hbits (2 * i + 1) (by omega)]
  · intro i hi
    have hi2 : NR_PARTICLES ≤ i := hi
    show (stores (host_x T r) 0 NR_PARTICLES w.memory)[i]? = _
    rw [stores_getElem? (host_x T r) NR_PARTICLES 0 w.memory i (by omega),
      if_neg (by omega)]

theorem render_transcribes_all_slots_witness :
    ∃ w1, Java_com_innopeaktech_naboo_taichi_1test_NativeLib_render T0 render_in world_ready
        = .ok w1
      ∧ (∀ i, i < 8192 → ∃ v, world_ready.memory[i]? = some v
          ∧ w1.memory[i]?
              = some { v with pos := (render_in.result (2 * i), render_in.result (2 * i + 1),
                                      float32.zero) })
      ∧ (render_events T0 render_in world_ready).filterMap Event.storeIndex = List.range 8192
      ∧ (∀ i p, Event.vertex_store i p ∈ render_events T0 render_in world_ready →
          p = (render_in.result (2 * i), render_in.result (2 * i + 1), float32.zero))
      ∧ (∀ i, 8192 ≤ i → w1.memory[i]? = world_ready.memory[i]?) :=
  render_transcribes_all_slots T0 render_in world_ready (by decide) world_ready_facts.1
    world_ready_facts.2.1 world_ready_facts.2.2.1 world_ready_facts.2.2.2

/-- C4, as stated, fails in the state after an `init` that stops because "substep" is
missing: the allocation is unmapped there, yet `render` calls `map` once, faults on its
first store, calls `unmap` not once but never, and ends with the allocation mapped. -/
theorem render_after_failed_init_stays_mapped :
    world_failed.mapped = false
      ∧ (∃ cr, Java_com_innopeaktech_naboo_taichi_1test_NativeLib_render T0 render_in
            world_failed = .error cr
          ∧ cr.fault = .out_of_bounds ∧ cr.world.mapped = true)
      ∧ (render_events T0 render_in world_failed).countP Event.isMap = 1
      ∧ (render_events T0 render_in world_failed).countP Event.isUnmap = 0 := by
  obtain ⟨hr, hv, hm, hmem⟩ := world_failed_facts
  obtain ⟨cr, hcr, hf, hmp, hev⟩ := render_no_memory T0 render_in world_failed hr hv hm hmem
  refine ⟨hm, ⟨cr, hcr, hf, hmp⟩, ?_, ?_⟩
  · rw [hev, List.countP_append, (countP_map_render_head T0 render_in _).1]
    rfl
  · rw [hev, List.countP_append, (countP_map_render_head T0 render_in _).2]
    rfl

/-- C4 (amended): with the mapped flag of the allocation modelled explicitly, in every
state in which the allocation is unmapped, `render` never faults on a second `map`; its
events are some events without unmap or store and with at most one `map`, then only
accesses of the transcription loop (which come only after that one `map`), then events
without map or store and with at most one `unmap`; and whenever it returns it has called
`map` exactly once and `unmap` exactly once and leaves the allocation unmapped.  When in
addition renderer and runtime are live and the allocation has room for `NR_PARTICLES`
vertices, `render` does return, and its events are some events without map, unmap or
store, the one `map`, only loop accesses with 8192 stores, the one `unmap`, and events
without map, unmap or store.  Every entry point, started on an unmapped allocation, ends
with the allocation unmapped when it returns and never faults on a second `map`. -/
theorem render_map_unmap_scoped (T : Target) (r : RenderIn) (w : World)
    (hm : w.mapped = false) :
    (∀ cr, Java_com_innopeaktech_naboo_taichi_1test_NativeLib_render T r w = .error cr →
        cr.fault ≠ .double_map)
      ∧ (∃ pre writes post,
          render_events T r w = pre ++ writes ++ post
          ∧ (∀ e ∈ pre, e.isUnmap = false ∧ e.isStore = false)
          ∧ pre.countP Event.isMap ≤ 1
          ∧ (∀ e ∈ writes, e.isAccess = true)
          ∧ (writes ≠ [] → pre.countP Event.isMap = 1)
          ∧ (∀ e ∈ post, e.isMap = false ∧ e.isStore = false)
          ∧ post.countP Event.isUnmap ≤ 1)
      ∧ (∀ w1, Java_com_innopeaktech_naboo_taichi_1test_NativeLib_render T r w = .ok w1 →
          w1.mapped = false
            ∧ (render_events T r w).countP Event.isMap = 1
            ∧ (render_events T r w).countP Event.isUnmap = 1)
      ∧ (w.g.renderer.isSome → w.g.vulkan_runtime.isSome →
          NR_PARTICLES ≤ w.memory.length →
          (∃ w1, Java_com_innopeaktech_naboo_taichi_1test_NativeLib_render T r w = .ok w1
            ∧ w1.mapped = false)
          ∧ (∃ pre writes post,
              render_events T r w
                  = pre ++ [.map w.g.dalloc_circles] ++ writes
                      ++ [.unmap w.g.dalloc_circles] ++ post
              ∧ (∀ e ∈ pre ++ post,
                  e.isMap = false ∧ e.isUnmap = false ∧ e.isStore = false)
              ∧ (∀ e ∈ writes, e.isAccess = true)
              ∧ writes.countP Event.isStore = 8192))
      ∧ (∀ (c : Call) (w2 : World), w2.mapped = false →
          match step T c w2 with
          | .ok w3 => w3.mapped = false
          | .error cr => cr.fault ≠ .double_map) := by
  have hout := render_outcome T r w hm
  have hhead : ∀ e ∈ render_head T r w.g, e.isUnmap = false ∧ e.isStore = false := by
    intro e he
    rcases mem_render_head T r w.g e he with h | h
    · subst h; exact ⟨rfl, rfl⟩
    · exact ⟨h.2.1, h.2.2.1⟩
  have htail : ∀ e ∈ render_tail w.g, e.isMap = false ∧ e.isStore = false := by
    intro e he
    simp only [render_tail, List.mem_cons, List.mem_singleton, List.not_mem_nil,
      or_false] at he
    rcases he with h | h | h | h | h <;> subst h <;> exact ⟨rfl, rfl⟩
  refine ⟨?_, ?_, ?_, ?_, ?_⟩
  · intro cr hcr
    rw [hcr] at hout
    exact hout
  · cases hr : w.g.renderer with
    | none =>
      refine ⟨[], [], [], ?_, by simp, by simp, by simp, by simp, by simp, by simp⟩
      rw [render_events, render_null_renderer T r w hr]
      simp [eventsFrom, finalWorld]
    | some rd =>
      have hr2 : w.g.renderer.isSome := by simp [hr]
      cases hv : w.g.vulkan_runtime with
      | none =>
        refine ⟨[.set_background_color (0.6, 0.6, 0.6), .steady_clock_now], [], [], ?_,
          by simp, by simp, by simp, by simp, by simp, by simp⟩
        rw [render_events, render_null_runtime T r w hr2 hv]
        simp [eventsFrom, finalWorld]
      | some vk =>
        obtain ⟨acc, hacc, h | h⟩ := render_shape T r w hr2 (by simp [hv]) hm
        · obtain ⟨w1, _, _, hev⟩ := h
          exact ⟨render_head T r w.g, acc, render_tail w.g, hev, hhead,
            le_of_eq (countP_map_render_head T r w.g).1, hacc,
            fun _ => (countP_map_render_head T r w.g).1, htail, by simp [render_tail]⟩
        · obtain ⟨cr, _, _, _, hev⟩ := h
          exact ⟨render_head T r w.g, acc, [], by rw [hev]; simp, hhead,
            le_of_eq (countP_map_render_head T r w.g).1, hacc,
            fun _ => (countP_map_render_head T r w.g).1, by simp, by simp⟩
  · intro w1 hw1
    rw [hw1] at hout
    refine ⟨hout, ?_⟩
    cases hr : w.g.renderer with
    | none =>
      rw [render_null_renderer T r w hr] at hw1
      cases hw1
    | some rd =>
      have hr2 : w.g.renderer.isSome := by simp [hr]
      cases hv : w.g.vulkan_runtime with
      | none =>
        rw [render_null_runtime T r w hr2 hv] at hw1
        cases hw1
      | some vk =>
        obtain ⟨acc, hacc, h | h⟩ := render_shape T r w hr2 (by simp [hv]) hm
        · obtain ⟨_, _, _, hev⟩ := h
          rw [hev]
          rw [List.countP_append, List.countP_append, List.countP_append,
            List.countP_append, (countP_map_render_head T r w.g).1,
            (countP_map_render_head T r w.g).2,
            countP_accesses acc Event.isMap hacc access_not_map,
            countP_accesses acc Event.isUnmap hacc access_not_unmap]
          exact ⟨rfl, rfl⟩
        · obtain ⟨cr, hcr, _⟩ := h
          rw [hcr] at hw1
          cases hw1
  · intro hr hv hc
    have hev := render_events_ok T r w hr hv hm hc
    refine ⟨⟨_, render_ok T r w hr hv hm hc, rfl⟩, ?_⟩
    refine ⟨[.set_background_color (0.6, 0.6, 0.6), .steady_clock_now]
        ++ substep_launches w.g.substep_kernel_handle
        ++ [.synchronize, .steady_clock_now,
            .ALOGI FUNCTION_render ("Execution time is %" ++ T.PRId64 ++ "ns\n")
              [r.cpu_time],
            .read_memory 0 (read_size T)],
      transcribe_events (host_x T r),
      [.circles (circles_info w.g.dalloc_circles), .draw_frame, .present_image,
       .prepare_for_next_frame], ?_, ?_, ?_, ?_⟩
    · rw [hev]
      simp only [render_head, render_tail, List.append_assoc, List.cons_append,
        List.nil_append]
    · intro e he
      simp only [List.mem_append, List.mem_cons, List.mem_singleton, List.not_mem_nil,
        or_false, mem_substep_launches] at he
      rcases he with (((h | h) | h) | (h | h | h | h)) | (h | h | h | h) <;> subst h <;>
        exact ⟨rfl, rfl, rfl⟩
    · exact fun e he => mem_transcribe_events _ e he
    · have h1 : ((transcribe_events (host_x T r)).filterMap Event.storeIndex).length = 8192 := by
        rw [transcribe_events, storeIndex_iter, List.length_range']
        rfl
      rw [← h1, List.countP_eq_length_filter]
      have : ∀ l : List Event, (l.filter Event.isStore).length
          = (l.filterMap Event.storeIndex).length := by
        intro l
        induction l with
        | nil => rfl
        | cons e l ih => cases e <;> simp [List.filter_cons, List.filterMap_cons, ih]
      exact this _
  · intro c w2 h2
    cases c with
    | init i => exact init_unmapped T i w2 h2
    | destroy => exact h2
    | pause => exact h2
    | resume => exact h2
    | resize width height => exact h2
    | render r2 => exact render_outcome T r2 w2 h2

theorem render_map_unmap_scoped_witness :
    (∃ w1, Java_com_innopeaktech_naboo_taichi_1test_NativeLib_render T0 render_in world_ready
          = .ok w1
        ∧ w1.mapped = false)
      ∧ (∃ pre writes post,
          render_events T0 render_in world_ready
              = pre ++ [.map world_ready.g.dalloc_circles] ++ writes
                  ++ [.unmap world_ready.g.dalloc_circles] ++ post
          ∧ (∀ e ∈ pre ++ post, e.isMap = false ∧ e.isUnmap = false ∧ e.isStore = false)
          ∧ (∀ e ∈ writes, e.isAccess = true)
          ∧ writes.countP Event.isStore = 8192) :=
  (render_map_unmap_scoped T0 render_in world_ready world_ready_facts.2.2.1).2.2.2.1
    world_ready_facts.1 world_ready_facts.2.1 world_ready_facts.2.2.2

/-- C5: the events of a `render` that starts with live pointers, an unmapped allocation
and room for `NR_PARTICLES` vertices end with `unmap`, `circles`, `draw_frame`,
`present_image`, `prepare_for_next_frame` in this order; before them there is none of
these four frame calls and no `unmap`, and the one `map` there, like every store, is on
the allocation `dalloc_circles`; the descriptor handed to `circles` refers to that same
allocation and has shape `[8192]`. -/
theorem render_frame_calls_order (T : Target) (r : RenderIn) (w : World)
    (hr : w.g.renderer.isSome) (hv : w.g.vulkan_runtime.isSome) (hm : w.mapped = false)
    (hc : NR_PARTICLES ≤ w.memory.length) :
    ∃ pre info,
      render_events T r w
          = pre ++ [.unmap w.g.dalloc_circles, .circles info, .draw_frame, .present_image,
                    .prepare_for_next_frame]
      ∧ (∀ e ∈ pre, e.isFrameCall = false ∧ e.isUnmap = false)
      ∧ pre.filter Event.isMap = [.map w.g.dalloc_circles]
      ∧ pre.countP Event.isStore = 8192
      ∧ info.renderable_info.vbo.dev_alloc = w.g.dalloc_circles
      ∧ info.renderable_info.vbo.shape = [8192] := by
  have hev := render_events_ok T r w hr hv hm hc
  refine ⟨render_head T r w.g ++ transcribe_events (host_x T r),
    circles_info w.g.dalloc_circles, ?_, ?_, ?_, ?_, rfl, rfl⟩
  · rw [hev]
    rfl
  · intro e he
    rcases List.mem_append.mp he with h | h
    · rcases mem_render_head T r w.g e h with h | h
      · subst h; exact ⟨rfl, rfl⟩
      · exact ⟨h.2.2.2.2, h.2.1⟩
    · have := mem_transcribe_events _ e h
      cases e <;> simp_all
  · have := filter_render T r w.g (host_x T r) Event.isMap rfl
      (by intro e h; cases e <;> simp_all)
    simp only [render_tail, List.filter_append] at this
    rw [List.filter_append, filter_transcribe_events _ _ (by intro e h; cases e <;> simp_all)]
    simp only [List.filter_append, filter_transcribe_events _ Event.isMap
      (by intro e h; cases e <;> simp_all), List.append_nil] at this
    simpa using this
  · have h1 : ((transcribe_events (host_x T r)).filterMap Event.storeIndex).length = 8192 := by
      rw [transcribe_events, storeIndex_iter, List.length_range']
      rfl
    have h2 : ∀ l : List Event, l.countP Event.isStore
        = (l.filterMap Event.storeIndex).length := by
      intro l
      induction l with
      | nil => rfl
      | cons e l ih => cases e <;> simp [List.countP_cons, List.filterMap_cons, ih]
    have h3 : (render_head T r w.g).countP Event.isStore = 0 := by
      rw [List.countP_eq_zero]
      intro e he
      rcases mem_render_head T r w.g e he with h | h
      · subst h; simp
      · rw [h.2.2.1]; exact Bool.false_ne_true
    rw [List.countP_append, h3, h2, h1]

theorem render_frame_calls_order_witness :
    ∃ pre info,
      render_events T0 render_in world_ready
          = pre ++ [.unmap world_ready.g.dalloc_circles, .circles info, .draw_frame,
                    .present_image, .prepare_for_next_frame]
      ∧ (∀ e ∈ pre, e.isFrameCall = false ∧ e.isUnmap = false)
      ∧ pre.filter Event.isMap = [.map world_ready.g.dalloc_circles]
      ∧ pre.countP Event.isStore = 8192
      ∧ info.renderable_info.vbo.dev_alloc = world_ready.g.dalloc_circles
      ∧ info.renderable_info.vbo.shape = [8192] :=
  render_frame_calls_order T0 render_in world_ready world_ready_facts.1
    world_ready_facts.2.1 world_ready_facts.2.2.1 world_ready_facts.2.2.2

/-- C6: an `init` on a module without the kernel "init" reports exactly one error, the one
that names "init", and an `init` on a module with "init" and without "substep" reports
exactly one error, the one that names "substep"; in both cases it issues no
`add_root_buffer`, no `register_taichi_kernel`, no `allocate_memory` and no
`launch_kernel`, and it leaves both kernel handles and `dalloc_circles` as they were.
With both kernels it reports no error and issues one `add_root_buffer`, two
`register_taichi_kernel`, one `allocate_memory` and one `launch_kernel`. -/
theorem init_missing_kernel (T : Target) (i : InitIn) (w : World) :
    match i.aot.get_kernel "init", i.aot.get_kernel "substep" with
    | none, _ =>
      (init_events T i w).filter Event.isError
          = [.ALOGE FUNCTION_init "Cannot find \x27init\x27 kernel\n"]
        ∧ (init_events T i w).countP Event.isAddRootBuffer = 0
        ∧ (init_events T i w).countP Event.isRegister = 0
        ∧ (init_events T i w).countP Event.isAllocate = 0
        ∧ (init_events T i w).countP Event.isLaunch = 0
        ∧ (Java_com_innopeaktech_naboo_taichi_1test_NativeLib_init T i w).g.init_kernel_handle
            = w.g.init_kernel_handle
        ∧ (Java_com_innopeaktech_naboo_taichi_1test_NativeLib_init T i w).g.substep_kernel_handle
            = w.g.substep_kernel_handle
        ∧ (Java_com_innopeaktech_naboo_taichi_1test_NativeLib_init T i w).g.dalloc_circles
            = w.g.dalloc_circles
    | some _, none =>
      (init_events T i w).filter Event.isError
          = [.ALOGE FUNCTION_init "Cannot find \x27substep\x27 kernel\n"]
        ∧ (init_events T i w).countP Event.isAddRootBuffer = 0
        ∧ (init_events T i w).countP Event.isRegister = 0
        ∧ (init_events T i w).countP Event.isAllocate = 0
        ∧ (init_events T i w).countP Event.isLaunch = 0
        ∧ (Java_com_innopeaktech_naboo_taichi_1test_NativeLib_init T i w).g.init_kernel_handle
            = w.g.init_kernel_handle
        ∧ (Java_com_innopeaktech_naboo_taichi_1test_NativeLib_init T i w).g.substep_kernel_handle
            = w.g.substep_kernel_handle
        ∧ (Java_com_innopeaktech_naboo_taichi_1test_NativeLib_init T i w).g.dalloc_circles
            = w.g.dalloc_circles
    | some _, some _ =>
      (init_events T i w).filter Event.isError = []
        ∧ (init_events T i w).countP Event.isAddRootBuffer = 1
        ∧ (init_events T i w).countP Event.isRegister = 2
        ∧ (init_events T i w).countP Event.isAllocate = 1
        ∧ (init_events T i w).countP Event.isLaunch = 1 := by
  cases h1 : i.aot.get_kernel "init" with
  | none =>
    simp only [init_events_no_init T i w h1, init_no_init T i w h1]
    refine ⟨?_, ?_, ?_, ?_, ?_, rfl, rfl, rfl⟩ <;> simp [init_head, init_tail_no_init]
  | some p1 =>
    cases h2 : i.aot.get_kernel "substep" with
    | none =>
      simp only [init_events_no_substep T i w p1 h1 h2, init_no_substep T i w p1 h1 h2]
      refine ⟨?_, ?_, ?_, ?_, ?_, rfl, rfl, rfl⟩ <;> simp [init_head, init_tail_no_substep]
    | some p2 =>
      simp only [init_events_complete T i w p1 p2 h1 h2]
      refine ⟨?_, ?_, ?_, ?_, ?_⟩ <;> simp [init_head, init_tail_complete]

/-- C7, as stated, fails on the sequence `init` (module without "substep"), `render`: the
trace is not one in which every launch uses a handle returned by an earlier
registration.  The `render` launches the default handle, and the whole trace before that
launch holds no `register_taichi_kernel` at all. -/
theorem launch_of_unregistered_handle :
    ¬ LaunchesRegistered
        (eventsFrom 0 (run T0 calls_render_after_failed_init (World.initial T0))) := by
  suffices hex : ∃ pre h post,
      eventsFrom 0 (run T0 calls_render_after_failed_init (World.initial T0))
          = pre ++ Event.launch_kernel h :: post
      ∧ ∀ e ∈ pre, e.isRegister = false by
    obtain ⟨pre, h, post, heq, hpre⟩ := hex
    intro hall
    obtain ⟨p, hp⟩ := hall pre h post heq
    exact Bool.noConfusion (hpre _ hp)
  have h1 : (init_in module_no_substep).aot.get_kernel "init" = some ⟨1⟩ := by decide
  have h2 : (init_in module_no_substep).aot.get_kernel "substep" = none := by decide
  have hw := init_no_substep T0 (init_in module_no_substep) (World.initial T0) ⟨1⟩ h1 h2
  obtain ⟨hr, hv⟩ := init_pointers T0 (init_in module_no_substep) (World.initial T0)
  obtain ⟨rest, ht, _, _⟩ := render_prefix T0 render_in _ hr hv
  have hrun : finalWorld (run T0 calls_render_after_failed_init (World.initial T0))
      = finalWorld (Java_com_innopeaktech_naboo_taichi_1test_NativeLib_render T0 render_in
          (Java_com_innopeaktech_naboo_taichi_1test_NativeLib_init T0
            (init_in module_no_substep) (World.initial T0))) := by
    rw [calls_render_after_failed_init, finalWorld_run_cons]
    exact finalWorld_run_single T0 _ _
  refine ⟨init_head T0 (init_in module_no_substep) ++ init_tail_no_substep
      ++ [.set_background_color (0.6, 0.6, 0.6), .steady_clock_now],
    T0.KernelHandle_default,
    List.replicate 49 (.launch_kernel T0.KernelHandle_default)
      ++ [.synchronize, .steady_clock_now,
          .ALOGI FUNCTION_render ("Execution time is %" ++ T0.PRId64 ++ "ns\n")
            [render_in.cpu_time],
          .read_memory 0 (read_size T0), .map T0.DeviceAllocation_default] ++ rest, ?_, ?_⟩
  · rw [eventsFrom, hrun, ht, hw]
    simp only [List.drop_zero, World.initial, List.nil_append, render_head, substep_launches,
      init_globals, List.append_assoc, List.cons_append]
    rfl
  · intro e he
    simp only [init_head, init_tail_no_substep, List.mem_append, List.mem_cons,
      List.mem_singleton, List.not_mem_nil, or_false] at he
    rcases he with ((h | h | h | h | h | h | h | h | h | h) | (h | h | h)) | (h | h) <;>
      subst h <;> rfl

/-- C7 (amended): for every platform and every sequence of lifecycle calls from process
start, each `init` with its own kernel module: if no `render` is called while the most
recent `init` is one that stopped because a kernel was missing, then every
`launch_kernel` of the whole trace uses a handle that an earlier
`register_taichi_kernel` returned on the runtime the launch goes to (no runtime was
created in between), hence a handle that an earlier registration returned.  This covers
a `render` with no `init` at all, which issues no launch.  On a sane platform the
condition is also necessary. -/
theorem launches_registered_when_guarded (T : Target) (calls : List Call) :
    (guarded calls = true →
        LaunchesRegisteredOnRuntime (eventsFrom 0 (run T calls (World.initial T)))
          ∧ LaunchesRegistered (eventsFrom 0 (run T calls (World.initial T))))
      ∧ (T.ok →
          LaunchesRegisteredOnRuntime (eventsFrom 0 (run T calls (World.initial T))) →
          guarded calls = true) := by
  refine ⟨fun hg => ?_, fun hT hall => ?_⟩
  · have h : LaunchesRegisteredOnRuntime (eventsFrom 0 (run T calls (World.initial T))) :=
      run_phaseInv T calls .fresh (World.initial T) ⟨rfl, launchesRegisteredOnRuntime_nil⟩ hg
    exact ⟨h, launchesRegistered_of_onRuntime _ h⟩
  · cases hg : guarded calls with
    | true => rfl
    | false => exact absurd hall (run_phaseOk T hT calls .fresh (World.initial T) rfl hg)

theorem launches_registered_when_guarded_witness :
    (LaunchesRegisteredOnRuntime (eventsFrom 0 (run T0 calls_guarded (World.initial T0)))
        ∧ LaunchesRegistered (eventsFrom 0 (run T0 calls_guarded (World.initial T0))))
      ∧ (LaunchesRegisteredOnRuntime
            (eventsFrom 0 (run T0 calls_render_first (World.initial T0)))
          ∧ LaunchesRegistered (eventsFrom 0 (run T0 calls_render_first (World.initial T0))))
      ∧ ¬ LaunchesRegisteredOnRuntime
            (eventsFrom 0 (run T0 calls_render_after_failed_reinit (World.initial T0))) :=
  ⟨(launches_registered_when_guarded T0 calls_guarded).1 (by decide),
   (launches_registered_when_guarded T0 calls_render_first).1 (by decide),
   fun h => Bool.noConfusion
     ((show guarded calls_render_after_failed_reinit = false by decide).symm.trans
       ((launches_registered_when_guarded T0 calls_render_after_failed_reinit).2
         (by decide) h))⟩

/-- C8: when the byte size of `NR_PARTICLES` vertices fits in `size_t`, an `init` that finds
both kernels requests device memory exactly once, and the request has size
`NR_PARTICLES * sizeof(Vertex)` (with `NR_PARTICLES = 8192`), host-write and host-read
set; the allocation returned is the one stored in `dalloc_circles`. -/
theorem init_allocation_request (T : Target) (i : InitIn) (w : World)
    (hfit : NR_PARTICLES * T.sizeof_Vertex < 2 ^ T.size_t_bits) (hi : i.complete = true) :
    (init_events T i w).filter Event.isAllocate
        = [.allocate_memory { size := 8192 * T.sizeof_Vertex, host_write := true,
                              host_read := true } i.new_alloc]
      ∧ (Java_com_innopeaktech_naboo_taichi_1test_NativeLib_init T i w).g.dalloc_circles
          = i.new_alloc := by
  obtain ⟨p1, p2, h1, h2⟩ := (complete_iff i).mp hi
  have e : T.size_t (NR_PARTICLES * T.sizeof_Vertex) = 8192 * T.sizeof_Vertex :=
    Nat.mod_eq_of_lt hfit
  rw [init_events_complete T i w p1 p2 h1 h2, init_complete T i w p1 p2 h1 h2]
  simp [init_head, init_tail_complete, init_alloc_params, e]

theorem init_allocation_request_witness :
    (init_events T0 (init_in module_full) (World.initial T0)).filter Event.isAllocate
        = [.allocate_memory { size := 8192 * T0.sizeof_Vertex, host_write := true,
                              host_read := true } (init_in module_full).new_alloc]
      ∧ (Java_com_innopeaktech_naboo_taichi_1test_NativeLib_init T0 (init_in module_full)
          (World.initial T0)).g.dalloc_circles = (init_in module_full).new_alloc :=
  init_allocation_request T0 (init_in module_full) (World.initial T0) (by decide) (by decide)

/-- C9: in every program state, the one before any `init` included, `destroy`, `pause` and
`resume` return the world they were given (globals, device memory and trace), and `resize`,
for every width and height, changes neither the globals nor the device memory and adds one
event, a diagnostic log line, which is not a call on the memory pool, the runtime, the
device or the renderer. -/
theorem lifecycle_noops (w : World) (width height : Int) :
    Java_com_innopeaktech_naboo_taichi_1test_NativeLib_destroy w = w
    ∧ Java_com_innopeaktech_naboo_taichi_1test_NativeLib_pause w = w
    ∧ Java_com_innopeaktech_naboo_taichi_1test_NativeLib_resume w = w
    ∧ (Java_com_innopeaktech_naboo_taichi_1test_NativeLib_resize width height w).g = w.g
    ∧ (Java_com_innopeaktech_naboo_taichi_1test_NativeLib_resize width height w).mapped
        = w.mapped
    ∧ (Java_com_innopeaktech_naboo_taichi_1test_NativeLib_resize width height w).memory
        = w.memory
    ∧ (Java_com_innopeaktech_naboo_taichi_1test_NativeLib_resize width height w).trace
        = w.trace ++ [.ALOGI FUNCTION_resize "Resize requested for %dx%d" [width, height]]
    ∧ (Event.ALOGI FUNCTION_resize "Resize requested for %dx%d"
        [width, height]).isLibraryCall = false :=
  ⟨rfl, rfl, rfl, rfl, rfl, rfl, rfl, rfl⟩

/-- C10: on a sane platform, take any world, an `init` that finds both kernels, and any
further lifecycle calls.  The sequence returns, and in the state `w` it reaches `render`
returns, so none of its checked accesses is out of bounds.  Its one read starts at offset
0 and has length 65536 = 8192 * 2 * 4 bytes, which is the byte capacity of the local array
`x`.  The loads from `x` are the indices 0, 1, ..., 16383 in this order, each once, so
each is below the length of `x` and every float read is used once.  The stores write the
slots 0, 1, ..., 8191, each below 8192, which is the number of vertices in the vertex
memory and the number every allocation request of `init` is sized for. -/
theorem render_accesses_in_bounds (T : Target) (i : InitIn) (calls : List Call)
    (r : RenderIn) (w0 : World) (hT : T.ok) (hi : i.complete = true) :
    ∃ w, run T (.init i :: calls) w0 = .ok w
      ∧ (∃ w1, Java_com_innopeaktech_naboo_taichi_1test_NativeLib_render T r w = .ok w1)
      ∧ (render_events T r w).filter Event.isRead = [.read_memory 0 65536]
      ∧ 8192 * 2 * sizeof_float32 = 65536
      ∧ sizeof_float32 * (local_x r).length = 65536
      ∧ (render_events T r w).filterMap Event.loadIndex = List.range 16384
      ∧ (∀ j, Event.host_load j ∈ render_events T r w → j < (local_x r).length)
      ∧ (render_events T r w).filterMap Event.storeIndex = List.range 8192
      ∧ (∀ k p, Event.vertex_store k p ∈ render_events T r w → k < w.memory.length)
      ∧ w.memory.length = 8192
      ∧ (∀ (j : InitIn) (w2 : World) (p : AllocParams) (d : DeviceAllocation),
          Event.allocate_memory p d ∈ init_events T j w2 →
            p.size / T.sizeof_Vertex = 8192) := by
  obtain ⟨w, hrun, hr, hv, hm, hc⟩ :=
    run_good T hT calls _ ((init_good T i w0 hT).1 hi)
  have hev := render_events_ok T r w hr hv hm (le_of_eq hc.symm)
  have hload := loadIndex_render T r w.g (host_x T r)
  have hstore := storeIndex_render T r w.g (host_x T r)
  have hlen : (local_x r).length = 16384 := by
    rw [local_x, List.length_map, List.length_range]
    rfl
  refine ⟨w, hrun, ⟨_, render_ok T r w hr hv hm (le_of_eq hc.symm)⟩, ?_, by decide, ?_, ?_,
    ?_, ?_, ?_, hc, ?_⟩
  · rw [hev, filter_render T r w.g (host_x T r) _ rfl (by intro e h; cases e <;> simp_all),
      read_size_eq T hT.2.1]
    simp [render_tail]
  · rw [hlen]
    rfl
  · rw [hev]
    exact hload
  · intro j hj
    have : j ∈ (render_events T r w).filterMap Event.loadIndex :=
      List.mem_filterMap.mpr ⟨_, hj, rfl⟩
    rw [hev, hload, List.mem_range] at this
    rw [hlen]
    exact this
  · rw [hev]
    exact hstore
  · intro k p hk
    have : k ∈ (render_events T r w).filterMap Event.storeIndex :=
      List.mem_filterMap.mpr ⟨_, hk, rfl⟩
    rw [hev, hstore, List.mem_range] at this
    rw [hc]
    exact this
  · intro j w2 p d hmem
    exact init_allocate_capacity T hT j w2 p d hmem

theorem render_accesses_in_bounds_witness :
    ∃ w, run T0 (.init (init_in module_full) :: [.render render_in, .resize 720 1280])
          (World.initial T0) = .ok w
      ∧ (∃ w1, Java_com_innopeaktech_naboo_taichi_1test_NativeLib_render T0 render_in w
          = .ok w1)
      ∧ (render_events T0 render_in w).filter Event.isRead = [.read_memory 0 65536]
      ∧ 8192 * 2 * sizeof_float32 = 65536
      ∧ sizeof_float32 * (local_x render_in).length = 65536
      ∧ (render_events T0 render_in w).filterMap Event.loadIndex = List.range 16384
      ∧ (∀ j, Event.host_load j ∈ render_events T0 render_in w →
          j < (local_x render_in).length)
      ∧ (render_events T0 render_in w).filterMap Event.storeIndex = List.range 8192
      ∧ (∀ k p, Event.vertex_store k p ∈ render_events T0 render_in w → k < w.memory.length)
      ∧ w.memory.length = 8192
      ∧ (∀ (j : InitIn) (w2 : World) (p : AllocParams) (d : DeviceAllocation),
          Event.allocate_memory p d ∈ init_events T0 j w2 →
            p.size / T0.sizeof_Vertex = 8192) :=
  render_accesses_in_bounds T0 (init_in module_full) [.render render_in, .resize 720 1280]
    render_in (World.initial T0) (by decide) (by decide)

end TaichiAot
